import Mathlib

/-!
Verification development for the arc-isle schema parser.

This file shallowly embeds the core of the repository — the type-expression
grammar parser (`src/parser/types.rs`), the type-usage tracker, the interface
parser (`src/parser/interfaces.rs`), the end-of-run reconciliation
(`src/parser/mod.rs`) and the `Display` rendering (`src/schema.rs`) — as
executable Lean definitions, and proves theorems checking the specification's
claims against them.

Conventions of the embedding:
* Rust `HashMap<String, TypeUsageMeta>` is modelled as an association list
  with replacing insert; iteration order is irrelevant to every claim.
* A Rust panic (out-of-bounds indexing, `unwrap` on `None`, indexing a hash
  map at a missing key) is modelled as the `Option` value `none`; a normal
  return is `some`.
* Rust `char` iteration is modelled on `List Char`; index cursors into the
  character vector become the remaining suffix of the list.
-/

namespace ArcIsle

/-- Rust `Primitive` (schema.rs). -/
inductive Primitive where
  | int
  | double
  | bool
  | str
  deriving DecidableEq, Repr

/-- Rust `StatusCode` (schema.rs): `Fixed(u16)` or `Prefix(u16)` (`Nxx`). -/
inductive StatusCode where
  | fixed (n : Nat)
  | pfx (n : Nat)
  deriving DecidableEq, Repr

/-- Rust `ImportError` (schema.rs); the `ReadError` payload of `IOError` is
not needed by any claim and is dropped. -/
inductive ImportError where
  | ioError
  | invalidInputSource
  | invalidImportValue
  deriving DecidableEq, Repr

/-- Rust `TypeDeclError` (schema.rs). -/
inductive TypeDeclError where
  | importFailure (e : ImportError)
  | unsupportedTypeDeclaration
  | unsupportedKeyType
  | emptyTypeDeclaration
  | subtypeValuesEmptyDeclaration
  | unsupportedPrimitive (s : String)
  deriving DecidableEq, Repr

/-- Rust `InterfaceDeclError` (schema.rs). -/
inductive InterfaceDeclError where
  | importFailure (e : ImportError)
  | bodyNotAllowed
  | queryNotAllowed
  | invalidKey
  | invalidStatusCode
  | typeNotFound (s : String)
  | invalidResponseDeclaration
  | invalidInterfaceDeclaration
  | invalidIdent
  | emptyParam
  | invalidMethod
  | invalidQuery
  | invalidBody
  | invalidResponseTypeDeclaration
  deriving DecidableEq, Repr

/-- Rust `HttpMethod` (schema.rs). -/
inductive HttpMethod where
  | get
  | post
  | put
  | delete
  | patch
  | head
  deriving DecidableEq, Repr

/-- Rust `UnknownType`, as constructed in `TypeParser::handle_if_unknown_type`
(types.rs): the variants carry the declaration-site index, and the response
variant also the status code. -/
inductive UnknownType where
  | inTypeDeclaration (i : Nat) (pi : Nat)
  | inPayload (i : Nat) (pi : Nat)
  | inResponse (i : Nat) (code : StatusCode) (pi : Nat)
  deriving DecidableEq, Repr

/-- Rust `TypeDeclSource` (types.rs). -/
inductive TypeDeclSource where
  | typ (i : Nat)
  | interfaceInput (i : Nat)
  | interfaceOutput (i : Nat) (code : StatusCode)
  deriving DecidableEq, Repr

mutual
/-- Rust `DataType` (schema.rs). `object` is a named reference, `objectDecl`
an anonymous inline record. -/
inductive DataType where
  | primitive (p : Primitive)
  | array (t : DataType)
  | dict (k : Primitive) (v : DataType)
  | object (name : String)
  | objectDecl (t : TypeDecl)

/-- Rust `DataTypeDecl` (schema.rs). -/
inductive DataTypeDecl where
  | mk (data_type : DataType) (is_required : Bool)

/-- Rust `PropertyDecl` (schema.rs): the type resolution of a property can
fail independently of its siblings. -/
inductive PropertyDecl where
  | mk (name : String) (data_type_decl : Except TypeDeclError DataTypeDecl)

/-- Rust `TypeDecl` (schema.rs). -/
inductive TypeDecl where
  | mk (name : String) (property_decls : List PropertyDecl)
end

/-- Accessor for `DataTypeDecl.data_type`. -/
def DataTypeDecl.data_type : DataTypeDecl → DataType
  | .mk t _ => t

/-- Accessor for `DataTypeDecl.is_required`. -/
def DataTypeDecl.is_required : DataTypeDecl → Bool
  | .mk _ r => r

/-- Accessor for `TypeDecl.name`. -/
def TypeDecl.name : TypeDecl → String
  | .mk n _ => n

/-- Accessor for `TypeDecl.property_decls`. -/
def TypeDecl.property_decls : TypeDecl → List PropertyDecl
  | .mk _ ps => ps

/-- Rust `TypeUsageMeta`: `None` once declared, `Some(list)` accumulating the
unresolved reference sites. -/
abbrev TypeUsageMeta := Option (List UnknownType)

/-- The process-scoped type-usage tracker `HashMap<String, TypeUsageMeta>`,
modelled as an association list. -/
abbrev Usage := List (String × TypeUsageMeta)

/-- `HashMap::get` on the tracker. -/
def lookupUsage : Usage → String → Option TypeUsageMeta
  | [], _ => none
  | (k', v) :: r, k => if k' = k then some v else lookupUsage r k

/-- `HashMap::insert` on the tracker (replaces an existing binding). -/
def insertUsage : Usage → String → TypeUsageMeta → Usage
  | [], k, v => [(k, v)]
  | (k', v') :: r, k, v =>
      if k' = k then (k, v) :: r else (k', v') :: insertUsage r k v

/-- The `UnknownType` value built by the `make_unknown` closure in
`TypeParser::handle_if_unknown_type` (types.rs). -/
def unknownOf : TypeDeclSource → UnknownType
  | .typ i => .inTypeDeclaration i 0
  | .interfaceInput i => .inPayload i 0
  | .interfaceOutput i code => .inResponse i code 0

/-- Rust `TypeParser::handle_if_unknown_type` (types.rs): append a reference
site if the name has unresolved references, do nothing if it is already
declared (`None`), create a fresh one-element list if it is absent. -/
def handleIfUnknownType (u : Usage) (src : TypeDeclSource) (name : String) :
    Usage :=
  match lookupUsage u name with
  | some (some l) => insertUsage u name (some (l ++ [unknownOf src]))
  | some none => u
  | none => insertUsage u name (some [unknownOf src])

/-- Rust `TypeParser::make_primitive` (types.rs). -/
def makePrimitive (raw : String) : Except TypeDeclError Primitive :=
  if raw = "str" then .ok .str
  else if raw = "bool" then .ok .bool
  else if raw = "int" then .ok .int
  else if raw = "double" then .ok .double
  else .error (.unsupportedPrimitive raw)

/-- The per-character condition of the type-name scan in
`TypeParser::string_data_type_decl` (types.rs): alphabetic or underscore, and
numeric except at index 0. `first` is true exactly when the index is 0. -/
def nameChar (first : Bool) (c : Char) : Bool :=
  c.isAlpha || c = '_' || (!first && c.isDigit)

/-- The leading-name scan loop of `TypeParser::string_data_type_decl`
(types.rs, lines 118-125): returns the scanned name characters and the
remaining suffix. -/
def scanName : List Char → Bool → List Char × List Char
  | [], _ => ([], [])
  | c :: r, first =>
      if nameChar first c then
        let (a, b) := scanName r false
        (c :: a, b)
      else ([], c :: r)

/-- The `while` loop of `TypeParser::subtypes` (types.rs, lines 245-264).
`rest` is the suffix of the character vector from the current index, `n` the
`n_open_braces` counter, `acc` the collected subtype strings and `cur` the
`subtype_value` accumulator.  Returns the collected strings and the remaining
suffix (the loop breaks at the matching `]`, which stays in the suffix), or
`none` where the Rust code would index out of bounds after the `_i += 2`
comma skip. -/
def subtypesLoop : List Char → Nat → List String → List Char →
    Option (List String × List Char)
  | [], _, acc, _ => some (acc, [])
  | c :: r, n, acc, cur =>
      if c = ']' ∧ n = 1 then some (acc ++ [String.mk cur], c :: r)
      else
        let n1 := if c = ']' then n - 1 else n
        if c = ',' then
          match r with
          | _ :: b :: r2 =>
              let n2 := if b = '[' then n1 + 1 else n1
              subtypesLoop r2 n2 (acc ++ [String.mk cur]) [b]
          | _ => none
        else
          let n2 := if c = '[' then n1 + 1 else n1
          subtypesLoop r n2 acc (cur ++ [c])

/-- Rust `TypeParser::subtypes` (types.rs): `rest` is the suffix from the
current read index. If the first character is not `[` nothing is consumed.
Otherwise the bracket group is split; an empty collected entry yields
`SubtypeValuesEmptyDeclaration`, and one character (the matching `]` when the
loop broke) is skipped afterwards. Indexing an empty suffix is a panic. -/
def subtypesFn (rest : List Char) :
    Option (Except TypeDeclError (List String × List Char)) :=
  match rest with
  | [] => none
  | c :: r =>
      if c = '[' then
        match subtypesLoop r 1 [] [] with
        | none => none
        | some (acc, rem) =>
            if acc.any String.isEmpty then
              some (.error .subtypeValuesEmptyDeclaration)
            else some (.ok (acc, rem.drop 1))
      else some (.ok ([], c :: r))

/-- Char-index search used for `value_type_name.find("[")` in
`TypeParser::make_dict_data_type` (types.rs). -/
def strFind : List Char → Char → Option Nat
  | [], _ => none
  | x :: r, c => if x = c then some 0 else (strFind r c).map (· + 1)

/-- Measure of a subtype-string list: each string counts its length plus one.
Used for the termination of `makeDataType`. -/
def sumLen (l : List String) : Nat :=
  l.foldr (fun s acc => s.length + 1 + acc) 0

/-- The length of a rebuilt string. -/
def length_strMk : ∀ (l : List Char), (String.mk l).length = l.length :=
  fun _ => rfl

/-- `sumLen` of a one-element extension. -/
def sumLen_append1 : ∀ (acc : List String) (s : String),
    sumLen (acc ++ [s]) = sumLen acc + (s.length + 1) := by
  intro acc s
  induction acc with
  | nil => simp [sumLen]
  | cons a r ih =>
      simp only [List.cons_append, sumLen, List.foldr_cons] at ih ⊢
      omega

/-- The first element bounds `sumLen` from below. -/
def sumLen_ge_get0 : ∀ (l : List String) (s0 : String),
    l[0]? = some s0 → s0.length + 1 ≤ sumLen l := by
  intro l s0 h
  cases l with
  | nil => simp at h
  | cons a r =>
      simp at h
      subst h
      simp only [sumLen, List.foldr_cons]
      omega

/-- The second element bounds `sumLen` from below. -/
def sumLen_ge_get1 : ∀ (l : List String) (s1 : String),
    l[1]? = some s1 → s1.length + 2 ≤ sumLen l := by
  intro l s1 h
  cases l with
  | nil => simp at h
  | cons a r =>
      cases r with
      | nil => simp at h
      | cons b r2 =>
          simp at h
          subst h
          simp only [sumLen, List.foldr_cons]
          omega

/-- A found index is within bounds. -/
def strFind_lt : ∀ (l : List Char) (c : Char) (i : Nat),
    strFind l c = some i → i < l.length := by
  intro l c
  induction l with
  | nil => intro i h; simp [strFind] at h
  | cons x r ih =>
      intro i h
      simp only [strFind] at h
      by_cases hx : x = c
      · simp [hx] at h
        simp
        omega
      · simp [hx, Option.map_eq_some'] at h
        obtain ⟨j, hj, rfl⟩ := h
        have := ih j hj
        simp
        omega

/-- Size bound on the output of `subtypesLoop`: the collected strings cannot
exceed what was already accumulated plus the scanned region. -/
def subtypesLoop_sum : ∀ (rest : List Char) (n : Nat) (acc : List String)
    (cur : List Char) (pieces : List String) (rem : List Char),
    subtypesLoop rest n acc cur = some (pieces, rem) →
    sumLen pieces ≤ sumLen acc + (cur.length + 1) + rest.length := by
  intro rest n acc cur
  induction rest, n, acc, cur using subtypesLoop.induct with
  | case1 n acc cur =>
      intro pieces rem h
      rw [subtypesLoop] at h
      injection h with h
      injection h with h1 h2
      subst h1
      omega
  | case2 c r n acc cur hc =>
      intro pieces rem h
      rw [subtypesLoop] at h
      rw [if_pos hc] at h
      injection h with h
      injection h with h1 h2
      subst h1
      rw [sumLen_append1, length_strMk]
      omega
  | case3 n acc cur head b r2 hc n1 n2 ih =>
      intro pieces rem h
      rw [subtypesLoop] at h
      rw [if_neg hc, if_pos rfl] at h
      have hrec := ih pieces rem h
      rw [sumLen_append1, length_strMk] at hrec
      simp only [List.length_cons, List.length_nil] at hrec ⊢
      omega
  | case4 r n acc cur hshape hc =>
      intro pieces rem h
      rw [subtypesLoop] at h
      rw [if_neg hc, if_pos rfl] at h
      match r, hshape with
      | [], _ => simp at h
      | [x], _ => simp at h
      | x :: y :: r2, hs => exact (hs x y r2 rfl).elim
  | case5 c r n acc cur hc n1 hcomma n2 ih =>
      intro pieces rem h
      rw [subtypesLoop] at h
      rw [if_neg hc, if_neg hcomma] at h
      have hrec := ih pieces rem h
      simp only [List.length_cons, List.length_nil, List.length_append]
        at hrec ⊢
      omega

/-- Size bound on the output of `subtypesFn`. -/
def subtypesFn_sum : ∀ (l : List Char) (subs : List String) (rem : List Char),
    subtypesFn l = some (.ok (subs, rem)) → sumLen subs ≤ l.length := by
  intro l subs rem h
  match l with
  | [] => simp [subtypesFn] at h
  | c :: r =>
      simp only [subtypesFn] at h
      by_cases hc : c = '['
      · rw [if_pos hc] at h
        match hl : subtypesLoop r 1 [] [] with
        | none =>
            simp only [hl] at h
            exact Option.noConfusion h
        | some (acc, rem2) =>
            simp only [hl] at h
            have hb := subtypesLoop_sum r 1 [] [] acc rem2 hl
            by_cases he : acc.any String.isEmpty
            · rw [if_pos he] at h; simp at h
            · rw [if_neg he] at h
              injection h with h
              injection h with h
              injection h with h1 h2
              subst h1
              simp only [sumLen, List.foldr_nil, List.length_cons,
                List.length_nil] at hb ⊢
              omega
      · rw [if_neg hc] at h
        injection h with h
        injection h with h
        injection h with h1 h2
        subst h1
        simp [sumLen]

/-- The processing of `subtypes[1]` inside `TypeParser::make_dict_data_type`
(types.rs, lines 226-233): split the dict value string at its first `[` into
the value type name and its own subtype strings. A faithful factoring of
those lines into a standalone function. -/
def dictValueSplit (s1 : String) :
    Option (Except TypeDeclError (String × List String)) :=
  match strFind s1.toList '[' with
  | some idx =>
      match subtypesFn (s1.toList.drop idx) with
      | none => none
      | some (.error e) => some (.error e)
      | some (.ok (vsubs, _)) =>
          some (.ok (String.mk (s1.toList.take idx), vsubs))
  | none => some (.ok (s1, []))

/-- The value name and subtypes produced by `dictValueSplit` are bounded by
the input string, which makes `makeDataType` terminate. -/
def dictValueSplit_bound : ∀ (s1 : String) (vname : String)
    (vsubs : List String), dictValueSplit s1 = some (.ok (vname, vsubs)) →
    vname.length + 2 * sumLen vsubs ≤ 2 * s1.length := by
  intro s1 vname vsubs h
  simp only [dictValueSplit] at h
  match hf : strFind s1.toList '[' with
  | some idx =>
      simp only [hf] at h
      have hidx := strFind_lt _ _ _ hf
      match hs : subtypesFn (s1.toList.drop idx) with
      | none =>
          simp only [hs] at h
          exact Option.noConfusion h
      | some (.error e) =>
          simp only [hs] at h
          simp at h
      | some (.ok (vsubs2, rem2)) =>
          simp only [hs] at h
          simp at h
          obtain ⟨h1, h2⟩ := h
          subst h1
          subst h2
          have hb := subtypesFn_sum _ _ _ hs
          simp only [String.toList] at hb hidx
          simp only [List.length_drop] at hb
          have hgl : ({ data := List.take idx s1.data } : String).length
              = idx := by
            show (List.take idx s1.data).length = idx
            rw [List.length_take]
            omega
          rw [hgl]
          have hsl : s1.length = s1.data.length := rfl
          omega
  | none =>
      simp only [hf] at h
      simp at h
      obtain ⟨h1, h2⟩ := h
      subst h1
      subst h2
      have h0 : sumLen ([] : List String) = 0 := rfl
      omega

mutual
/-- Rust `TypeParser::make_data_type` (types.rs): primitives resolve directly,
`array` takes its first subtype as a bare name with no further subtypes,
`dict` delegates, four alias names resolve to primitives, and any other name
becomes a named reference recorded in the usage tracker.  `subtypes[0]` on an
empty list is an out-of-bounds panic (`none`). -/
def makeDataType (u : Usage) (src : TypeDeclSource) (typeName : String)
    (subtypes : List String) : Option (Except TypeDeclError DataType × Usage) :=
  match makePrimitive typeName with
  | .ok p => some (.ok (.primitive p), u)
  | .error _ =>
    if h1 : typeName = "array" then
      match subtypes with
      | [] => none
      | s0 :: _ =>
          match makeDataType u src s0 [] with
          | none => none
          | some (.error e, u2) => some (.error e, u2)
          | some (.ok t, u2) => some (.ok (.array t), u2)
    else if h2 : typeName = "dict" then makeDictDataType u src subtypes
    else if typeName = "date_iso8601" then some (.ok (.primitive .str), u)
    else if typeName = "url" then some (.ok (.primitive .str), u)
    else if typeName = "timestamp" then some (.ok (.primitive .int), u)
    else if typeName = "uuid" then some (.ok (.primitive .str), u)
    else some (.ok (.object typeName), handleIfUnknownType u src typeName)
termination_by typeName.length + 2 * sumLen subtypes
decreasing_by
  · have h5 : typeName.length = 5 := by rw [h1]; rfl
    simp only [sumLen, List.foldr_cons, List.foldr_nil] at *
    omega
  · have h4 : typeName.length = 4 := by rw [h2]; rfl
    simp only [sumLen] at *
    omega

/-- Rust `TypeParser::make_dict_data_type` (types.rs): the first subtype must
resolve to a primitive key, the second is split at its first `[` and
recursively resolved as the value type; a missing first or second subtype is
an out-of-bounds panic (`none`). -/
def makeDictDataType (u : Usage) (src : TypeDeclSource)
    (subtypes : List String) : Option (Except TypeDeclError DataType × Usage) :=
  match subtypes with
  | [] => none
  | s0 :: tail =>
    match makePrimitive s0 with
    | .error e => some (.error e, u)
    | .ok key =>
      match tail with
      | [] => none
      | s1 :: _ =>
        match h1 : dictValueSplit s1 with
        | none => none
        | some (.error e) => some (.error e, u)
        | some (.ok (vname, vsubs)) =>
            match makeDataType u src vname vsubs with
            | none => none
            | some (.error e, u2) => some (.error e, u2)
            | some (.ok v, u2) => some (.ok (.dict key v), u2)
termination_by 1 + 2 * sumLen subtypes
decreasing_by
  have hb := dictValueSplit_bound _ vname vsubs h1
  simp only [sumLen, List.foldr_cons] at *
  omega
end

/-- Unfolding of `makeDictDataType` with the termination hypothesis erased,
for equational reasoning. -/
def makeDictDataType_unfold : ∀ (u : Usage) (src : TypeDeclSource)
    (subtypes : List String), makeDictDataType u src subtypes =
    match subtypes with
    | [] => none
    | s0 :: tail =>
      match makePrimitive s0 with
      | .error e => some (.error e, u)
      | .ok key =>
        match tail with
        | [] => none
        | s1 :: _ =>
          match dictValueSplit s1 with
          | none => none
          | some (.error e) => some (.error e, u)
          | some (.ok (vname, vsubs)) =>
              match makeDataType u src vname vsubs with
              | none => none
              | some (.error e, u2) => some (.error e, u2)
              | some (.ok v, u2) => some (.ok (.dict key v), u2) := by
  intro u src subtypes
  unfold makeDictDataType
  repeat' split
  all_goals simp_all

/-- Rust `TypeParser::string_data_type_decl` (types.rs): parse one textual
type expression.  An empty string or an empty scanned name is
`EmptyTypeDeclaration`; if the name consumes the whole string the data type is
built with no subtypes and `is_required = true`; otherwise the bracket group
(if any) is split, the data type is built, and a trailing `?` at the current
position clears `is_required`. -/
def stringDataTypeDecl (u : Usage) (src : TypeDeclSource) (s : String) :
    Option (Except TypeDeclError DataTypeDecl × Usage) :=
  if s.isEmpty then some (.error .emptyTypeDeclaration, u)
  else
    let chars := s.toList
    let scanned := scanName chars true
    let typeName := String.mk scanned.1
    if typeName.isEmpty then some (.error .emptyTypeDeclaration, u)
    else
      match scanned.2 with
      | [] =>
          match makeDataType u src typeName [] with
          | none => none
          | some (.error e, u2) => some (.error e, u2)
          | some (.ok dt, u2) => some (.ok (.mk dt true), u2)
      | c0 :: rest0 =>
          match subtypesFn (c0 :: rest0) with
          | none => none
          | some (.error e) => some (.error e, u)
          | some (.ok (subs, rem)) =>
              match makeDataType u src typeName subs with
              | none => none
              | some (.error e, u2) => some (.error e, u2)
              | some (.ok dt, u2) =>
                  match rem with
                  | [] => some (.ok (.mk dt true), u2)
                  | c :: _ =>
                      some (.ok (.mk dt (if c = '?' then false else true)), u2)

/-- The document-tree node type produced by the external loader
(`yaml_rust::Yaml`), restricted to the node shapes the parser inspects. -/
inductive Yaml where
  | ystr (s : String)
  | yint (n : Int)
  | ybool (b : Bool)
  | yarr (items : List Yaml)
  | yhash (entries : List (Yaml × Yaml))
  | ynull

/-- A mapping node's entry list (`yaml_rust::yaml::Hash`). -/
abbrev YamlHash := List (Yaml × Yaml)

mutual
/-- Structural equality on document nodes (`PartialEq` on `Yaml`). -/
def yamlBeq : Yaml → Yaml → Bool
  | .ystr a, .ystr b => a == b
  | .yint a, .yint b => a == b
  | .ybool a, .ybool b => a == b
  | .yarr a, .yarr b => yamlListBeq a b
  | .yhash a, .yhash b => yamlPairsBeq a b
  | .ynull, .ynull => true
  | _, _ => false

/-- Structural equality on node sequences. -/
def yamlListBeq : List Yaml → List Yaml → Bool
  | [], [] => true
  | a :: ra, b :: rb => yamlBeq a b && yamlListBeq ra rb
  | _, _ => false

/-- Structural equality on mapping entry lists. -/
def yamlPairsBeq : List (Yaml × Yaml) → List (Yaml × Yaml) → Bool
  | [], [] => true
  | (ka, va) :: ra, (kb, vb) :: rb =>
      yamlBeq ka kb && yamlBeq va vb && yamlPairsBeq ra rb
  | _, _ => false
end

/-- `Yaml::as_str`: only string nodes answer. -/
def Yaml.asStr : Yaml → Option String
  | .ystr s => some s
  | _ => none

/-- `Yaml::as_hash`: only mapping nodes answer. -/
def Yaml.asHash : Yaml → Option YamlHash
  | .yhash h => some h
  | _ => none

/-- `LinkedHashMap::get` on a mapping node. -/
def lookupYaml : YamlHash → Yaml → Option Yaml
  | [], _ => none
  | (k', v) :: r, k => if yamlBeq k' k then some v else lookupYaml r k

/-- `LinkedHashMap::contains_key` on a mapping node. -/
def containsKeyYaml (h : YamlHash) (k : Yaml) : Bool :=
  (lookupYaml h k).isSome

mutual
/-- Rust `TypeParser::make_data_type_decl` (types.rs): a string runs the
type-expression grammar, a mapping is a nested anonymous record, anything
else is `UnsupportedTypeDeclaration`. -/
def makeDataTypeDecl (u : Usage) (src : TypeDeclSource)
    (propertyName : String) (rawType : Yaml) :
    Option (Except TypeDeclError DataTypeDecl × Usage) :=
  match rawType with
  | .ystr s => stringDataTypeDecl u src s
  | .yhash h => hashDataTypeDecl u src propertyName h
  | _ => some (.error .unsupportedTypeDeclaration, u)
termination_by (sizeOf rawType, 0)

/-- Rust `TypeParser::hash_data_type_decl` (types.rs): an empty mapping is
`EmptyTypeDeclaration`; otherwise a nested `TypeParser` keyed by the property
name parses it, the result is wrapped as an always-required inline record and
any parse error collapses to `UnsupportedTypeDeclaration`. -/
def hashDataTypeDecl (u : Usage) (src : TypeDeclSource)
    (propertyName : String) (h : YamlHash) :
    Option (Except TypeDeclError DataTypeDecl × Usage) :=
  if h.isEmpty then some (.error .emptyTypeDeclaration, u)
  else
    match typeParserParse u src propertyName h with
    | none => none
    | some (.error _, u2) => some (.error .unsupportedTypeDeclaration, u2)
    | some (.ok td, u2) => some (.ok (.mk (.objectDecl td) true), u2)
termination_by (sizeOf h, 2)

/-- Rust `TypeParser::parse` (types.rs): parse every property of the value
mapping, then unconditionally mark this parser's own key as declared (`None`)
in the usage tracker. -/
def typeParserParse (u : Usage) (src : TypeDeclSource) (key : String)
    (value : YamlHash) : Option (Except TypeDeclError TypeDecl × Usage) :=
  match parseProperties u src value with
  | none => none
  | some (.error e, u2) => some (.error e, u2)
  | some (.ok props, u2) => some (.ok (.mk key props), insertUsage u2 key none)
termination_by (sizeOf value, 1)

/-- The property loop of `TypeParser::parse` (types.rs): a non-string
property key aborts the whole parse with `UnsupportedKeyType`; a property
whose type expression fails is captured per property and does not abort its
siblings. -/
def parseProperties (u : Usage) (src : TypeDeclSource) (entries : YamlHash) :
    Option (Except TypeDeclError (List PropertyDecl) × Usage) :=
  match entries with
  | [] => some (.ok [], u)
  | (k, v) :: rest =>
      match k.asStr with
      | none => some (.error .unsupportedKeyType, u)
      | some pn =>
          match makeDataTypeDecl u src pn v with
          | none => none
          | some (dres, u2) =>
              match parseProperties u2 src rest with
              | none => none
              | some (.error e, u3) => some (.error e, u3)
              | some (.ok props, u3) =>
                  some (.ok (.mk pn dres :: props), u3)
termination_by (sizeOf entries, 0)
end

/-- `Display` for `Primitive` (schema.rs). -/
def renderPrimitive : Primitive → String
  | .int => "int"
  | .double => "double"
  | .bool => "bool"
  | .str => "str"

/-- `Display` for `ImportError` (imports.rs).  Rendering an `IOError` would
call the `todo!()` `Display` of `ReadError` and panic; only the prefix is
modelled since no claim renders import errors. -/
def renderImportError : ImportError → String
  | .ioError => "I/O error while loading imports: "
  | .invalidInputSource => "Input source should be a hashmap"
  | .invalidImportValue => "Import statement should be string"

/-- `Display` for `TypeDeclError` (schema.rs). -/
def renderTypeDeclError : TypeDeclError → String
  | .importFailure e => "Import failed: " ++ renderImportError e
  | .unsupportedTypeDeclaration =>
      "This type declaration format is not supported."
  | .unsupportedKeyType => "Key type must be string."
  | .emptyTypeDeclaration => "Type declaration cannot be empty."
  | .subtypeValuesEmptyDeclaration => "Subtype declaration cannot be empty."
  | .unsupportedPrimitive v => "Primitive " ++ v ++ " not supported."

mutual
/-- `Display` for `DataType` (schema.rs, lines 165-175): arrays render as
`array[T]`, dicts as `dict\x7b K: V \x7d` (with braces, not brackets), named
references as the bare identifier. -/
def renderDataType : DataType → String
  | .primitive p => renderPrimitive p
  | .array t => "array[" ++ renderDataType t ++ "]"
  | .dict k v =>
      "dict\x7b " ++ renderPrimitive k ++ ": " ++ renderDataType v ++ " \x7d"
  | .object ident => ident
  | .objectDecl td => renderTypeDecl td

/-- `Display` for `DataTypeDecl` (schema.rs, lines 146-154): a trailing `?`
exactly when not required. -/
def renderDataTypeDecl : DataTypeDecl → String
  | .mk dt req => renderDataType dt ++ (if req then "" else "?")

/-- `Display` for `TypeDecl` (schema.rs, lines 77-93). -/
def renderTypeDecl : TypeDecl → String
  | .mk name props =>
      "type `" ++ name ++ "` \x7b " ++ renderProps props ++ " \x7d"

/-- The property loop of `Display` for `TypeDecl` (schema.rs). -/
def renderProps : List PropertyDecl → String
  | [] => ""
  | .mk pn d :: rest =>
      (match d with
       | .ok dtd => pn ++ ": " ++ renderDataTypeDecl dtd ++ "; "
       | .error e => pn ++ ": " ++ renderTypeDeclError e ++ "; ")
      ++ renderProps rest
end

/-- `Display` (and `as_key`) for `StatusCode` (schema.rs). -/
def statusCodeToString : StatusCode → String
  | .fixed n => toString n
  | .pfx n => toString n ++ "xx"

/-- The opening-brace character of a path-parameter capture. -/
def lbraceChar : Char := Char.ofNat 123

/-- The closing-brace character of a path-parameter capture. -/
def rbraceChar : Char := Char.ofNat 125

/-- `Yaml::from_str` on the fixed keys the interface parser looks up
(`path`, `method`, `query`, `body`, `response`, `_import`): none of them
parses as a number or boolean, so the node is a plain string. -/
def keyFrom (s : String) : Yaml := .ystr s

/-- Rust `get_ident` (interfaces.rs): `hash[&"path"]` panics when the key is
absent; a present non-string value is `InvalidIdent`. -/
def getIdent (hash : YamlHash) : Option (Except InterfaceDeclError String) :=
  match lookupYaml hash (keyFrom "path") with
  | none => none
  | some v =>
      match v.asStr with
      | none => some (.error .invalidIdent)
      | some s => some (.ok s)

/-- The character loop of Rust `get_params` (interfaces.rs): `reading` is the
in-capture flag, `param` the current capture, `params` the collected ones. -/
def getParamsLoop : List Char → Bool → String → List String →
    Except InterfaceDeclError (List String)
  | [], _, _, params => .ok params
  | c :: r, reading, param, params =>
      if c = lbraceChar then getParamsLoop r true param params
      else if c = rbraceChar then
        if param.isEmpty then .error .emptyParam
        else getParamsLoop r false "" (params ++ [param])
      else if reading then getParamsLoop r reading (param.push c) params
      else getParamsLoop r reading param params

/-- Rust `get_params` (interfaces.rs). -/
def getParams (ident : String) : Except InterfaceDeclError (List String) :=
  getParamsLoop ident.toList false "" []

/-- Rust `get_method` (interfaces.rs): `hash[&"method"]` panics when the key
is absent; a non-string or unknown value is `InvalidMethod`. -/
def getMethod (hash : YamlHash) : Option (Except InterfaceDeclError HttpMethod) :=
  match lookupYaml hash (keyFrom "method") with
  | none => none
  | some v =>
      match v.asStr with
      | none => some (.error .invalidMethod)
      | some m =>
          if m = "get" then some (.ok .get)
          else if m = "post" then some (.ok .post)
          else if m = "put" then some (.ok .put)
          else if m = "delete" then some (.ok .delete)
          else if m = "head" then some (.ok .head)
          else if m = "patch" then some (.ok .patch)
          else some (.error .invalidMethod)

/-- Rust `HttpPayload` (schema.rs). -/
inductive HttpPayload where
  | query (props : List PropertyDecl)
  | body (props : List PropertyDecl)

/-- Rust `HttpResponses` (schema.rs): an optional `StatusCode → TypeDecl`
mapping, modelled as an association list. -/
abbrev HttpResponses := Option (List (StatusCode × TypeDecl))

/-- Rust `ApiSpec` (schema.rs). -/
inductive ApiSpec where
  | mk (method : HttpMethod) (payload : Option HttpPayload)
      (responses : HttpResponses)

/-- Rust `InterfaceSpec` (schema.rs). -/
inductive InterfaceSpec where
  | api (spec : ApiSpec)

/-- Rust `InterfaceDecl` (schema.rs). -/
inductive InterfaceDecl where
  | mk (ident : String) (params : List String) (spec : InterfaceSpec)

/-- The list of type-parse outcomes the interface parser resolves names
against (`InterfacesParser::types`). -/
abbrev TypesList := List (Except TypeDeclError TypeDecl)

/-- The `find` over already-parsed types in `InterfaceParser::get_response`
and `response_type_decl` (interfaces.rs): an `Err` element never matches. -/
def findType (types : TypesList) (name : String) :
    Option (Except TypeDeclError TypeDecl) :=
  types.find? (fun e => match e with
    | .ok td => td.name == name
    | .error _ => false)

/-- Rust `InterfaceParser::parse_response` (interfaces.rs): run a
`TypeParser` keyed by the rendered status code with an
`InterfaceOutput` source; any parse error collapses to
`InvalidResponseTypeDeclaration`. -/
def parseResponse (u : Usage) (code : StatusCode) (hash : YamlHash) :
    Option (Except InterfaceDeclError TypeDecl × Usage) :=
  match typeParserParse u (.interfaceOutput 0 code) (statusCodeToString code)
      hash with
  | none => none
  | some (.error _, u2) => some (.error .invalidResponseTypeDeclaration, u2)
  | some (.ok td, u2) => some (.ok td, u2)

/-- Rust `InterfaceParser::response_type_decl` (interfaces.rs): a mapping is
an anonymous 200 response body; a string resolves against already-parsed
types and a miss is immediately `TypeNotFound`. -/
def responseTypeDecl (types : TypesList) (u : Usage) (node : Yaml) :
    Option (Except InterfaceDeclError TypeDecl × Usage) :=
  match node with
  | .yhash val => parseResponse u (.fixed 200) val
  | .ystr name =>
      match findType types name with
      | some (.ok val) => some (.ok (.mk name val.property_decls), u)
      | some (.error _) => some (.error (.typeNotFound name), u)
      | none => some (.error (.typeNotFound name), u)
  | _ => some (.error .invalidResponseDeclaration, u)

/-- Rust `char::to_digit(10)`. -/
def charToDigit (c : Char) : Option Nat :=
  if c.isDigit then some (c.toNat - 48) else none

/-- Rust `<u16 as FromStr>::from_str`: an optional leading `+`, then one or
more decimal digits, value at most `65535`. -/
def digitsValue (l : List Char) : Option Nat :=
  if l.isEmpty then none
  else if l.all Char.isDigit then
    let v := l.foldl (fun a c => a * 10 + (c.toNat - 48)) 0
    if v < 65536 then some v else none
  else none

/-- Rust `key.parse::<u16>()` on the response key string. -/
def parseU16 (s : String) : Option Nat :=
  match s.toList with
  | [] => none
  | c :: rest => if c = '+' then digitsValue rest else digitsValue (c :: rest)

/-- Rust `InterfaceParser::as_status_code_pattern` (interfaces.rs): take the
first character; if it is a decimal digit the key is a `Prefix` pattern, and
everything after the first character is ignored. -/
def asStatusCodePattern (key : String) :
    Except InterfaceDeclError StatusCode :=
  match key.toList.head? with
  | none => .error .invalidStatusCode
  | some c =>
      match charToDigit c with
      | none => .error .invalidStatusCode
      | some d => .ok (.pfx d)

/-- The per-key status computation of `InterfaceParser::custom_responses`
(interfaces.rs, lines 144-148): a key parsing as `u16` is `Fixed`, otherwise
it falls back to the prefix pattern. -/
def statusFromKeyString (key : String) : Except InterfaceDeclError StatusCode :=
  match parseU16 key with
  | some code => .ok (.fixed code)
  | none => asStatusCodePattern key

/-- The key extraction of `InterfaceParser::custom_responses` (interfaces.rs,
lines 139-143): strings pass through, integers are rendered, anything else is
`InvalidKey`. -/
def responseKeyString (key : Yaml) : Except InterfaceDeclError String :=
  match key with
  | .ystr v => .ok v
  | .yint v => .ok (toString v)
  | _ => .error .invalidKey

/-- `HashMap::insert` on the response mapping. -/
def insertResponse : List (StatusCode × TypeDecl) → StatusCode → TypeDecl →
    List (StatusCode × TypeDecl)
  | [], s, td => [(s, td)]
  | (s2, td2) :: r, s, td =>
      if s2 = s then (s, td) :: r else (s2, td2) :: insertResponse r s td

/-- The entry loop of `InterfaceParser::custom_responses` (interfaces.rs). -/
def customResponsesLoop (types : TypesList) (u : Usage) (entries : YamlHash)
    (acc : List (StatusCode × TypeDecl)) :
    Option (Except InterfaceDeclError (List (StatusCode × TypeDecl)) × Usage) :=
  match entries with
  | [] => some (.ok acc, u)
  | (k, v) :: rest =>
      match responseKeyString k with
      | .error e => some (.error e, u)
      | .ok keyStr =>
          match statusFromKeyString keyStr with
          | .error e => some (.error e, u)
          | .ok status =>
              match responseTypeDecl types u v with
              | none => none
              | some (.error e, u2) => some (.error e, u2)
              | some (.ok td, u2) =>
                  customResponsesLoop types u2 rest
                    (insertResponse acc status td)

/-- Rust `InterfaceParser::custom_responses` (interfaces.rs). -/
def customResponses (types : TypesList) (u : Usage) (hash : YamlHash) :
    Option (Except InterfaceDeclError HttpResponses × Usage) :=
  match customResponsesLoop types u hash [] with
  | none => none
  | some (.error e, u2) => some (.error e, u2)
  | some (.ok resp, u2) => some (.ok (some resp), u2)

/-- Rust `InterfaceParser::has_custom_response_codes` (interfaces.rs): some
key is a string whose first character is a decimal digit. -/
def hasCustomResponseCodes (hash : YamlHash) : Bool :=
  hash.any (fun p => match p.1.asStr with
    | some k =>
        match k.toList.head? with
        | some c => c.isDigit
        | none => false
    | none => false)

/-- Rust `InterfaceParser::responses_from` (interfaces.rs): with a
status-code-looking key the mapping is a code table, otherwise the whole
mapping is one implicit `Fixed(200)` response body. -/
def responsesFrom (types : TypesList) (u : Usage) (hash : YamlHash) :
    Option (Except InterfaceDeclError HttpResponses × Usage) :=
  if hasCustomResponseCodes hash then customResponses types u hash
  else
    match parseResponse u (.fixed 200) hash with
    | none => none
    | some (.error e, u2) => some (.error e, u2)
    | some (.ok td, u2) => some (.ok (some [(.fixed 200, td)]), u2)

/-- Rust `InterfaceParser::get_response` (interfaces.rs). -/
def getResponse (types : TypesList) (u : Usage) (hash : YamlHash) :
    Option (Except InterfaceDeclError HttpResponses × Usage) :=
  if ¬ containsKeyYaml hash (keyFrom "response") then some (.ok none, u)
  else
    match lookupYaml hash (keyFrom "response") with
    | none => none
    | some node =>
        match node with
        | .yhash val => responsesFrom types u val
        | .ystr name =>
            match findType types name with
            | some (.ok val) =>
                some (.ok (some [(.fixed 200, .mk name val.property_decls)]), u)
            | some (.error _) => some (.error (.typeNotFound name), u)
            | none => some (.error (.typeNotFound name), u)
        | _ => some (.error .invalidResponseDeclaration, u)

/-- Rust `InterfaceParser::get_query_if_has` (interfaces.rs): an absent
`query` key is fine; a non-mapping value is `InvalidQuery`; otherwise a
`TypeParser` keyed `"query"` with an `InterfaceInput` source parses it. -/
def getQueryIfHas (u : Usage) (hash : YamlHash) :
    Option (Except InterfaceDeclError (Option HttpPayload) × Usage) :=
  if ¬ containsKeyYaml hash (keyFrom "query") then some (.ok none, u)
  else
    match lookupYaml hash (keyFrom "query") with
    | none => none
    | some v =>
        match v.asHash with
        | none => some (.error .invalidQuery, u)
        | some raw =>
            match typeParserParse u (.interfaceInput 0) "query" raw with
            | none => none
            | some (.error _, u2) => some (.error .invalidQuery, u2)
            | some (.ok q, u2) =>
                some (.ok (some (.query q.property_decls)), u2)

/-- Rust `InterfaceParser::get_body_if_has` (interfaces.rs). -/
def getBodyIfHas (u : Usage) (hash : YamlHash) :
    Option (Except InterfaceDeclError (Option HttpPayload) × Usage) :=
  if ¬ containsKeyYaml hash (keyFrom "body") then some (.ok none, u)
  else
    match lookupYaml hash (keyFrom "body") with
    | none => none
    | some v =>
        match v.asHash with
        | none => some (.error .invalidBody, u)
        | some raw =>
            match typeParserParse u (.interfaceInput 0) "body" raw with
            | none => none
            | some (.error _, u2) => some (.error .invalidBody, u2)
            | some (.ok b, u2) =>
                some (.ok (some (.body b.property_decls)), u2)

/-- Rust `InterfaceParser::get_payload` (interfaces.rs): `Get`/`Head` forbid
`body` and optionally parse `query`; `Post`/`Put`/`Patch` forbid `query` and
optionally parse `body`; `Delete` forbids both, checking `query` first. -/
def getPayload (u : Usage) (method : HttpMethod) (hash : YamlHash) :
    Option (Except InterfaceDeclError (Option HttpPayload) × Usage) :=
  match method with
  | .get | .head =>
      if containsKeyYaml hash (keyFrom "body") then
        some (.error .bodyNotAllowed, u)
      else getQueryIfHas u hash
  | .post | .put | .patch =>
      if containsKeyYaml hash (keyFrom "query") then
        some (.error .queryNotAllowed, u)
      else getBodyIfHas u hash
  | .delete =>
      if containsKeyYaml hash (keyFrom "query") then
        some (.error .queryNotAllowed, u)
      else if containsKeyYaml hash (keyFrom "body") then
        some (.error .bodyNotAllowed, u)
      else some (.ok none, u)

/-- Rust `InterfaceParser::parse` (interfaces.rs): ident, path parameters,
method, payload, responses, in that order. -/
def interfaceParse (types : TypesList) (u : Usage) (hash : YamlHash) :
    Option (Except InterfaceDeclError InterfaceDecl × Usage) :=
  match getIdent hash with
  | none => none
  | some (.error e) => some (.error e, u)
  | some (.ok ident) =>
      match getParams ident with
      | .error e => some (.error e, u)
      | .ok params =>
          match getMethod hash with
          | none => none
          | some (.error e) => some (.error e, u)
          | some (.ok method) =>
              match getPayload u method hash with
              | none => none
              | some (.error e, u2) => some (.error e, u2)
              | some (.ok payload, u2) =>
                  match getResponse types u2 hash with
                  | none => none
                  | some (.error e, u3) => some (.error e, u3)
                  | some (.ok responses, u3) =>
                      some (.ok (.mk ident params
                        (.api (.mk method payload responses))), u3)

/-- The end-of-run reconciliation loop of `parse` (parser/mod.rs, lines
68-89): collect every reference site still recorded under a `Some` entry. -/
def missingDeclarations (u : Usage) : List UnknownType :=
  u.foldr (fun p acc =>
    (match p.2 with
     | some l => l
     | none => []) ++ acc) []

/-- The terminal decision of `parse` (parser/mod.rs, lines 90-93): any
remaining reference site aborts the run with one aggregate error carrying
all of them; otherwise the schema is returned. -/
def reconcile (u : Usage) : Except (List UnknownType) Unit :=
  if (missingDeclarations u).isEmpty then .ok ()
  else .error (missingDeclarations u)

/-- The full set of names `TypeParser::make_data_type` resolves specially:
the four primitives, the two containers, and the four alias names. -/
def reservedNames : List String :=
  ["str", "bool", "int", "double", "array", "dict",
   "date_iso8601", "url", "timestamp", "uuid"]

/-- A string the leading-name scan consumes whole: nonempty, first character
alphabetic or underscore, remaining characters alphanumeric or underscore. -/
def identOkB (s : String) : Bool :=
  match s.toList with
  | [] => false
  | c :: r =>
      (c.isAlpha || c = '_') &&
      r.all (fun c2 => c2.isAlpha || c2 = '_' || c2.isDigit)

/-- Modelled from the spec (§6, status-code key grammar): a key conforms
exactly when it is a 3-character numeric string, or one digit followed by the
literal `xx`.  This is the specification-side grammar, to be compared with
the code's `statusFromKeyString`. -/
def specStatusKeyGrammar (s : String) : Bool :=
  match s.toList with
  | [a, b, c] =>
      (a.isDigit && b.isDigit && c.isDigit) ||
      (a.isDigit && b = 'x' && c = 'x')
  | _ => false

/-- Bracket balance for the subtype scanner, at relative depth `d`: no comma
anywhere, every `]` closes a `[` opened within the string, and the string
ends at depth zero. -/
def balNC : List Char → Nat → Bool
  | [], d => d == 0
  | c :: r, d =>
      if c = '[' then balNC r (d + 1)
      else if c = ']' then
        match d with
        | 0 => false
        | d2 + 1 => balNC r d2
      else if c = ',' then false
      else balNC r d

/-- The data types that survive a render/re-parse round trip in the element
position of an `array[...]` expression: primitives, and named references
whose name is nonempty, not specially resolved, and bracket-balanced with no
comma (the subtype splitter passes such a name through unchanged). -/
def arrayInnerSafe : DataType → Bool
  | .primitive _ => true
  | .object nm =>
      !nm.isEmpty && !(reservedNames.contains nm) && balNC nm.toList 0
  | _ => false

/-- The data types whose rendering re-parses to themselves: primitives,
plain-identifier named references, and arrays of an `arrayInnerSafe`
element.  `dict` is excluded (it renders with braces, which the parser
cannot read back), as are inline records and nested arrays (the parser
never produces `Array(Array _)`: the inner expression of `array[...]` is
taken as a bare name). -/
def roundTripSafe : DataType → Bool
  | .primitive _ => true
  | .object nm => identOkB nm && !(reservedNames.contains nm)
  | .array t => arrayInnerSafe t
  | _ => false

/-! ## Helper lemmas about the usage tracker -/

theorem lookupUsage_insert_self (u : Usage) (k : String) (v : TypeUsageMeta) :
    lookupUsage (insertUsage u k v) k = some v := by
  induction u with
  | nil => simp [insertUsage, lookupUsage]
  | cons p r ih =>
      obtain ⟨k2, v2⟩ := p
      by_cases hk : k2 = k
      · simp [insertUsage, hk, lookupUsage]
      · simp [insertUsage, hk, lookupUsage, ih]

theorem lookupUsage_insert_ne (u : Usage) (k k2 : String) (v : TypeUsageMeta)
    (hne : k ≠ k2) : lookupUsage (insertUsage u k v) k2 = lookupUsage u k2 := by
  induction u with
  | nil => simp [insertUsage, lookupUsage, hne]
  | cons p r ih =>
      obtain ⟨k3, v3⟩ := p
      by_cases hk : k3 = k
      · subst hk
        simp [insertUsage, lookupUsage, hne]
      · simp [insertUsage, hk, lookupUsage, ih]

theorem handleIfUnknownType_preserves_none (u : Usage) (src : TypeDeclSource)
    (name k : String) (h : lookupUsage u k = some none) :
    lookupUsage (handleIfUnknownType u src name) k = some none := by
  by_cases hk : name = k
  · subst hk
    simp only [handleIfUnknownType, h]
  · simp only [handleIfUnknownType]
    match hl : lookupUsage u name with
    | some (some l) => rw [lookupUsage_insert_ne _ _ _ _ hk]; exact h
    | some none => exact h
    | none => rw [lookupUsage_insert_ne _ _ _ _ hk]; exact h

theorem handleIfUnknownType_records (u : Usage) (src : TypeDeclSource)
    (name : String) (h : lookupUsage u name ≠ some none) :
    ∃ l, lookupUsage (handleIfUnknownType u src name) name = some (some l) ∧
      l ≠ [] := by
  simp only [handleIfUnknownType]
  match hl : lookupUsage u name with
  | some (some l) =>
      exact ⟨l ++ [unknownOf src], lookupUsage_insert_self u name _, by simp⟩
  | some none => exact absurd hl h
  | none =>
      exact ⟨[unknownOf src], lookupUsage_insert_self u name _, by simp⟩

theorem typeParserParse_declares (u : Usage) (src : TypeDeclSource)
    (key : String) (value : YamlHash) (td : TypeDecl) (u2 : Usage)
    (h : typeParserParse u src key value = some (.ok td, u2)) :
    lookupUsage u2 key = some none := by
  rw [typeParserParse] at h
  match hp : parseProperties u src value with
  | none =>
      simp only [hp] at h
      exact Option.noConfusion h
  | some (.error e, u3) =>
      simp only [hp] at h
      simp at h
  | some (.ok props, u3) =>
      simp only [hp] at h
      simp at h
      obtain ⟨-, h2⟩ := h
      subst h2
      exact lookupUsage_insert_self u3 key none

theorem missingDeclarations_mem (u : Usage) (k : String)
    (l : List UnknownType) (hmem : (k, some l) ∈ u) :
    ∀ e ∈ l, e ∈ missingDeclarations u := by
  induction u with
  | nil => simp at hmem
  | cons p r ih =>
      intro e he
      simp only [missingDeclarations, List.foldr_cons, List.mem_append]
      rcases List.mem_cons.mp hmem with h1 | h2
      · subst h1
        exact Or.inl he
      · exact Or.inr (ih h2 e he)

theorem missingDeclarations_empty_iff (u : Usage) :
    missingDeclarations u = [] ↔
      ∀ p ∈ u, p.2 = none ∨ p.2 = some [] := by
  induction u with
  | nil => simp [missingDeclarations]
  | cons p r ih =>
      obtain ⟨k, m⟩ := p
      simp only [missingDeclarations, List.foldr_cons, List.append_eq_nil,
        List.mem_cons] at *
      constructor
      · rintro ⟨h1, h2⟩
        intro q hq
        rcases hq with rfl | hq
        · match m, h1 with
          | none, _ => exact Or.inl rfl
          | some [], _ => exact Or.inr rfl
        · exact ih.mp h2 q hq
      · intro h
        constructor
        · rcases h (k, m) (Or.inl rfl) with h1 | h1 <;>
            simp at h1 <;> simp [h1]
        · exact ih.mpr (fun q hq => h q (Or.inr hq))

/-! ## Claim C1 -/

/-- **C1** (confirmed): tracker lifecycle and end-of-run reconciliation.
(1) A successful `TypeParser::parse` for a type name that still carries
unresolved references overwrites the tracker entry for that exact name to
declared (`None`); (2) once an entry is `None`, later reference recording
never revives it, so the run ends with no dangling-reference report for that
name; (3) every site in every still-unresolved entry is collected into the
aggregate missing-declaration list (the run does not fail on first sight);
(4) the run is terminal-error-free exactly when that aggregate list is
empty. -/
theorem c1_tracker_lifecycle_and_reconciliation :
    (∀ (u : Usage) (src : TypeDeclSource) (key : String) (value : YamlHash)
        (refs : List UnknownType) (td : TypeDecl) (u2 : Usage),
        lookupUsage u key = some (some refs) →
        typeParserParse u src key value = some (.ok td, u2) →
        lookupUsage u2 key = some none)
    ∧ (∀ (u : Usage) (src : TypeDeclSource) (name k : String),
        lookupUsage u k = some none →
        lookupUsage (handleIfUnknownType u src name) k = some none)
    ∧ (∀ (u : Usage) (k : String) (l : List UnknownType),
        (k, some l) ∈ u → ∀ e ∈ l, e ∈ missingDeclarations u)
    ∧ (∀ (u : Usage), reconcile u = .ok () ↔ missingDeclarations u = []) := by
  refine ⟨?_, ?_, ?_, ?_⟩
  · intro u src key value refs td u2 _ h
    exact typeParserParse_declares u src key value td u2 h
  · intro u src name k h
    exact handleIfUnknownType_preserves_none u src name k h
  · intro u k l hmem
    exact missingDeclarations_mem u k l hmem
  · intro u
    simp only [reconcile]
    by_cases he : (missingDeclarations u).isEmpty
    · simp [he, List.isEmpty_iff.mp he]
    · simp [he]
      intro hc
      exact he (by simp [hc, List.isEmpty_iff])

/-- Witness for C1: a tracker where `A` carries one unresolved reference,
then a successful parse of type `A` with an empty property list; the entry
ends up declared. -/
theorem c1_witness :
    lookupUsage [("A", (none : TypeUsageMeta))] "A" = some none :=
  c1_tracker_lifecycle_and_reconciliation.1
    [("A", some [.inTypeDeclaration 0 0])] (.typ 0) "A" []
    [.inTypeDeclaration 0 0] (.mk "A" []) [("A", none)]
    (by simp [lookupUsage])
    (by simp [typeParserParse, parseProperties, insertUsage, lookupUsage])

/-! ## Claim C9 -/

/-- **C9** (confirmed): every successful `TypeParser::parse` unconditionally
marks its own key as declared in the tracker — including for a nested inline
record (key = the property name), an interface query or body (key = `query` /
`body`) and a response mapping (key = the rendered status code) — so a
dangling reference to a type whose name equals any such key is silently
treated as resolved. -/
theorem c9_nested_parse_marks_key_declared :
    (∀ (u : Usage) (src : TypeDeclSource) (pn : String) (h : YamlHash)
        (r : DataTypeDecl) (u2 : Usage),
        makeDataTypeDecl u src pn (.yhash h) = some (.ok r, u2) →
        lookupUsage u2 pn = some none)
    ∧ (∀ (u : Usage) (hash : YamlHash) (q : Option HttpPayload) (u2 : Usage),
        containsKeyYaml hash (keyFrom "query") = true →
        getQueryIfHas u hash = some (.ok q, u2) →
        lookupUsage u2 "query" = some none)
    ∧ (∀ (u : Usage) (hash : YamlHash) (b : Option HttpPayload) (u2 : Usage),
        containsKeyYaml hash (keyFrom "body") = true →
        getBodyIfHas u hash = some (.ok b, u2) →
        lookupUsage u2 "body" = some none)
    ∧ (∀ (u : Usage) (code : StatusCode) (hash : YamlHash) (td : TypeDecl)
        (u2 : Usage),
        parseResponse u code hash = some (.ok td, u2) →
        lookupUsage u2 (statusCodeToString code) = some none)
    ∧ (∀ (u : Usage) (hash : YamlHash) (refs : List UnknownType)
        (q : Option HttpPayload) (u2 : Usage),
        lookupUsage u "query" = some (some refs) →
        containsKeyYaml hash (keyFrom "query") = true →
        getQueryIfHas u hash = some (.ok q, u2) →
        lookupUsage u2 "query" = some none) := by
  have hquery : ∀ (u : Usage) (hash : YamlHash) (q : Option HttpPayload)
      (u2 : Usage), containsKeyYaml hash (keyFrom "query") = true →
      getQueryIfHas u hash = some (.ok q, u2) →
      lookupUsage u2 "query" = some none := by
    intro u hash q u2 hc h
    rw [getQueryIfHas, if_neg (by simp [hc])] at h
    match hv : lookupYaml hash (keyFrom "query") with
    | none =>
        simp only [hv] at h
        exact Option.noConfusion h
    | some v =>
        simp only [hv] at h
        match hh : v.asHash with
        | none => simp only [hh] at h; simp at h
        | some raw =>
            simp only [hh] at h
            match hp : typeParserParse u (.interfaceInput 0) "query" raw with
            | none =>
                simp only [hp] at h
                exact Option.noConfusion h
            | some (.error e, u3) => simp only [hp] at h; simp at h
            | some (.ok tq, u3) =>
                simp only [hp] at h
                simp at h
                obtain ⟨-, h2⟩ := h
                subst h2
                exact typeParserParse_declares _ _ _ _ _ _ hp
  refine ⟨?_, hquery, ?_, ?_, ?_⟩
  · intro u src pn hh r u2 h
    rw [makeDataTypeDecl] at h
    rw [hashDataTypeDecl] at h
    by_cases he : hh.isEmpty
    · simp [he] at h
    · simp only [he, Bool.false_eq_true, if_false] at h
      match hp : typeParserParse u src pn hh with
      | none =>
          simp only [hp] at h
          exact Option.noConfusion h
      | some (.error e, u3) => simp only [hp] at h; simp at h
      | some (.ok td, u3) =>
          simp only [hp] at h
          simp at h
          obtain ⟨-, h2⟩ := h
          subst h2
          exact typeParserParse_declares _ _ _ _ _ _ hp
  · intro u hash b u2 hc h
    rw [getBodyIfHas, if_neg (by simp [hc])] at h
    match hv : lookupYaml hash (keyFrom "body") with
    | none =>
        simp only [hv] at h
        exact Option.noConfusion h
    | some v =>
        simp only [hv] at h
        match hh : v.asHash with
        | none => simp only [hh] at h; simp at h
        | some raw =>
            simp only [hh] at h
            match hp : typeParserParse u (.interfaceInput 0) "body" raw with
            | none =>
                simp only [hp] at h
                exact Option.noConfusion h
            | some (.error e, u3) => simp only [hp] at h; simp at h
            | some (.ok tb, u3) =>
                simp only [hp] at h
                simp at h
                obtain ⟨-, h2⟩ := h
                subst h2
                exact typeParserParse_declares _ _ _ _ _ _ hp
  · intro u code hash td u2 h
    rw [parseResponse] at h
    match hp : typeParserParse u (.interfaceOutput 0 code)
        (statusCodeToString code) hash with
    | none =>
        simp only [hp] at h
        exact Option.noConfusion h
    | some (.error e, u3) => simp only [hp] at h; simp at h
    | some (.ok td2, u3) =>
        simp only [hp] at h
        simp at h
        obtain ⟨-, h2⟩ := h
        subst h2
        exact typeParserParse_declares _ _ _ _ _ _ hp
  · intro u hash refs q u2 _ hc h
    exact hquery u hash q u2 hc h

/-- Witness for C9: a tracker holding a dangling reference to a type named
`query`, and an interface `query` mapping with no properties; after the
payload parse the entry is declared. -/
theorem c9_witness :
    lookupUsage [("query", (none : TypeUsageMeta))] "query" = some none :=
  c9_nested_parse_marks_key_declared.2.2.2.2
    [("query", some [.inPayload 0 0])] [(keyFrom "query", .yhash [])]
    [.inPayload 0 0] (some (.query [])) [("query", none)]
    (by simp [lookupUsage])
    (by simp [containsKeyYaml, lookupYaml, keyFrom, yamlBeq])
    (by simp [getQueryIfHas, containsKeyYaml, lookupYaml, keyFrom, yamlBeq,
      Yaml.asHash, typeParserParse, parseProperties, insertUsage,
      lookupUsage, TypeDecl.property_decls])

/-! ## Claim C4 -/

/-- **C4** (confirmed): method-dependent payload legality.  For `Get`/`Head`
a `body` key always fails with `BodyNotAllowed`, regardless of `query`; for
`Post`/`Put`/`Patch` a `query` key fails with `QueryNotAllowed`; for
`Delete` both are forbidden, and with both present the single reported error
is `QueryNotAllowed` (the query check runs first). -/
theorem c4_method_payload_legality :
    (∀ (u : Usage) (m : HttpMethod) (hash : YamlHash),
        (m = .get ∨ m = .head) →
        containsKeyYaml hash (keyFrom "body") = true →
        getPayload u m hash = some (.error .bodyNotAllowed, u))
    ∧ (∀ (u : Usage) (m : HttpMethod) (hash : YamlHash),
        (m = .post ∨ m = .put ∨ m = .patch) →
        containsKeyYaml hash (keyFrom "query") = true →
        getPayload u m hash = some (.error .queryNotAllowed, u))
    ∧ (∀ (u : Usage) (hash : YamlHash),
        containsKeyYaml hash (keyFrom "query") = true →
        getPayload u .delete hash = some (.error .queryNotAllowed, u))
    ∧ (∀ (u : Usage) (hash : YamlHash),
        containsKeyYaml hash (keyFrom "query") = false →
        containsKeyYaml hash (keyFrom "body") = true →
        getPayload u .delete hash = some (.error .bodyNotAllowed, u)) := by
  refine ⟨?_, ?_, ?_, ?_⟩
  · rintro u m hash (rfl | rfl) hc <;> simp [getPayload, hc]
  · rintro u m hash (rfl | rfl | rfl) hc <;> simp [getPayload, hc]
  · intro u hash hc
    simp [getPayload, hc]
  · intro u hash hq hb
    simp [getPayload, hq, hb]

/-- Witness for C4: a `delete` declaration carrying both `query` and `body`
mappings reports exactly the query-forbidden error. -/
theorem c4_witness :
    getPayload [] .delete
      [(keyFrom "query", .yhash []), (keyFrom "body", .yhash [])] =
      some (.error .queryNotAllowed, []) :=
  c4_method_payload_legality.2.2.1 []
    [(keyFrom "query", .yhash []), (keyFrom "body", .yhash [])]
    (by simp [containsKeyYaml, lookupYaml, keyFrom, yamlBeq])

/-! ## Claim C7 -/

/-- Counterexample for C7: an interface declaration node with no `path` key
(and no `method` key) does not produce the `InvalidIdent` / `InvalidMethod`
error values — indexing the mapping at the missing key panics (modelled as
`none`), so the claim's "absent ⇒ error value, never a crash" is false. -/
theorem c7_missing_key_counterexample :
    getIdent [] = none ∧ getMethod [] = none ∧
    interfaceParse [] [] [] = none := by
  refine ⟨rfl, rfl, ?_⟩
  simp [interfaceParse, getIdent, lookupYaml]

/-- **C7** (corrected): a `path` key that is present but non-string yields
`InvalidIdent` (also at the whole-declaration level); a `method` key that is
present but non-string, or a string other than the six known methods, yields
`InvalidMethod`; but an *absent* `path` or `method` key is a panic
(missing-key indexing), not an error value. -/
theorem c7_invalid_ident_and_method_amended :
    (∀ (hash : YamlHash) (v : Yaml),
        lookupYaml hash (keyFrom "path") = some v → v.asStr = none →
        getIdent hash = some (.error .invalidIdent))
    ∧ (∀ (hash : YamlHash),
        lookupYaml hash (keyFrom "path") = none → getIdent hash = none)
    ∧ (∀ (hash : YamlHash) (v : Yaml),
        lookupYaml hash (keyFrom "method") = some v → v.asStr = none →
        getMethod hash = some (.error .invalidMethod))
    ∧ (∀ (hash : YamlHash) (m : String),
        lookupYaml hash (keyFrom "method") = some (.ystr m) →
        m ∉ (["get", "post", "put", "delete", "head", "patch"] : List String) →
        getMethod hash = some (.error .invalidMethod))
    ∧ (∀ (hash : YamlHash),
        lookupYaml hash (keyFrom "method") = none → getMethod hash = none)
    ∧ (∀ (types : TypesList) (u : Usage) (hash : YamlHash) (v : Yaml),
        lookupYaml hash (keyFrom "path") = some v → v.asStr = none →
        interfaceParse types u hash = some (.error .invalidIdent, u)) := by
  refine ⟨?_, ?_, ?_, ?_, ?_, ?_⟩
  · intro hash v hl hs
    simp [getIdent, hl, hs]
  · intro hash hl
    simp [getIdent, hl]
  · intro hash v hl hs
    simp [getMethod, hl, hs]
  · intro hash m hl hm
    simp [reservedNames] at hm
    obtain ⟨h1, h2, h3, h4, h5, h6⟩ := hm
    simp [getMethod, hl, Yaml.asStr, h1, h2, h3, h4, h5, h6]
  · intro hash hl
    simp [getMethod, hl]
  · intro types u hash v hl hs
    simp [interfaceParse, getIdent, hl, hs]

/-- Witness for C7: a declaration whose `path` is an integer node yields
`InvalidIdent`. -/
theorem c7_witness :
    getIdent [(keyFrom "path", .yint 3)] = some (.error .invalidIdent) :=
  c7_invalid_ident_and_method_amended.1 [(keyFrom "path", .yint 3)] (.yint 3)
    (by simp [lookupYaml, keyFrom, yamlBeq]) rfl

/-! ## Claim C10 -/

/-- The `get_params` loop never errors and collects nothing more on a suffix
with no closing brace. -/
theorem getParamsLoop_no_close (u : List Char) :
    ∀ (reading : Bool) (param : String) (params : List String),
    rbraceChar ∉ u →
    getParamsLoop u reading param params = .ok params := by
  induction u with
  | nil => intro reading param params _; rfl
  | cons c r ih =>
      intro reading param params hmem
      have hcr : c ≠ rbraceChar := fun h => hmem (h ▸ List.mem_cons_self c r)
      have hr : rbraceChar ∉ r := fun h => hmem (List.mem_cons_of_mem c h)
      by_cases hl : c = lbraceChar
      · simp only [getParamsLoop]
        rw [if_pos hl]
        exact ih true param params hr
      · simp only [getParamsLoop]
        rw [if_neg hl, if_neg hcr]
        by_cases hrd : reading
        · subst hrd
          simp only [if_pos rfl]
          exact ih true (param.push c) params hr
        · simp only [Bool.not_eq_true] at hrd
          subst hrd
          simp only [Bool.false_eq_true, if_false]
          exact ih false param params hr

/-- Scanning a prefix followed by an opening brace and a close-free suffix is
the same as scanning the prefix alone. -/
theorem getParamsLoop_open_tail (t : List Char) :
    ∀ (u : List Char) (reading : Bool) (param : String)
    (params : List String), rbraceChar ∉ u →
    getParamsLoop (t ++ lbraceChar :: u) reading param params =
      getParamsLoop t reading param params := by
  induction t with
  | nil =>
      intro u reading param params hmem
      simp only [List.nil_append]
      simp only [getParamsLoop, if_true]
      rw [getParamsLoop_no_close u true param params hmem]
  | cons c r ih =>
      intro u reading param params hmem
      simp only [List.cons_append]
      simp only [getParamsLoop]
      by_cases hl : c = lbraceChar
      · rw [if_pos hl, if_pos hl]
        exact ih u true param params hmem
      · rw [if_neg hl, if_neg hl]
        by_cases hcr : c = rbraceChar
        · rw [if_pos hcr, if_pos hcr]
          by_cases hp : param.isEmpty
          · simp [hp]
          · simp only [hp, Bool.false_eq_true, if_false]
            exact ih u false "" (params ++ [param]) hmem
        · rw [if_neg hcr, if_neg hcr]
          by_cases hrd : reading
          · subst hrd
            simp only [if_pos rfl]
            exact ih u true (param.push c) params hmem
          · simp only [Bool.not_eq_true] at hrd
            subst hrd
            simp only [Bool.false_eq_true, if_false]
            exact ih u false param params hmem

/-- Counterexample for C10: the path `"\x7d\x7b"` (a stray closing brace
followed by an opening brace that is never closed) contains an unterminated
`\x7b`, yet path-parameter extraction fails with `EmptyParam` — and it does
so without any closed empty capture `\x7b\x7d` in the path. -/
theorem c10_stray_close_counterexample :
    getParams "\x7d\x7b" = .error .emptyParam := rfl

/-- **C10** (corrected): the suffix from an opening brace that is never
closed is silently dropped — extraction of `s ++ "\x7b" ++ u` with no `\x7d`
in `u` returns exactly the result for `s` alone (parameters of `s` when it
scans cleanly).  However `EmptyParam` is produced by *any* closing brace with
no captured characters, not only the literal `\x7b\x7d`: a bare `\x7d`
already fails. -/
theorem c10_unterminated_param_amended :
    (∀ (s u : String), rbraceChar ∉ u.toList →
        getParams (s ++ "\x7b" ++ u) = getParams s)
    ∧ getParams "\x7d" = .error .emptyParam
    ∧ getParams "\x7b\x7d" = .error .emptyParam := by
  refine ⟨?_, rfl, rfl⟩
  intro s u hmem
  have htl : (s ++ "\x7b" ++ u).toList = s.toList ++ lbraceChar :: u.toList :=
    by
      have h1 : (s ++ "\x7b" ++ u).toList = (s.toList ++ "\x7b".toList)
          ++ u.toList := rfl
      have h2 : "\x7b".toList = [lbraceChar] := rfl
      rw [h1, h2, List.append_assoc]
      rfl
  rw [getParams, htl, getParamsLoop_open_tail s.toList u.toList false "" []
    hmem]
  rfl

/-- Witness for C10: `"news/\x7bid\x7d/x\x7bunfinished"` extracts exactly
`["id"]`, dropping the unterminated capture. -/
theorem c10_witness :
    getParams "news/\x7bid\x7d/x\x7bunfinished" = .ok ["id"] := by
  have h := c10_unterminated_param_amended.1 "news/\x7bid\x7d/x"
    "unfinished" (by decide)
  have h2 : getParams "news/\x7bid\x7d/x" = .ok ["id"] := rfl
  calc getParams "news/\x7bid\x7d/x\x7bunfinished"
      = getParams ("news/\x7bid\x7d/x" ++ "\x7b" ++ "unfinished") := by rfl
    _ = getParams "news/\x7bid\x7d/x" := h
    _ = .ok ["id"] := h2

/-! ## Name-scan machinery -/

theorem strMk_toList (s : String) : String.mk s.toList = s := rfl

theorem scanName_all_name (l : List Char) :
    ∀ (rest : List Char), (∀ c ∈ l, nameChar false c = true) →
    (match rest with | [] => True | c :: _ => nameChar false c = false) →
    scanName (l ++ rest) false = (l, rest) := by
  induction l with
  | nil =>
      intro rest _ hrest
      match rest with
      | [] => rfl
      | c :: r =>
          simp only [List.nil_append]
          simp only [scanName]
          rw [if_neg (by simp [hrest])]
  | cons c l2 ih =>
      intro rest hall hrest
      have hc : nameChar false c = true := hall c (List.mem_cons_self c l2)
      simp only [List.cons_append]
      simp only [scanName]
      rw [if_pos hc]
      rw [ih rest (fun c2 h2 => hall c2 (List.mem_cons_of_mem c h2)) hrest]

theorem scanName_ident (nm : String) (rest : List Char)
    (h1 : identOkB nm = true)
    (hrest : match rest with | [] => True | c :: _ => nameChar false c = false) :
    scanName (nm.toList ++ rest) true = (nm.toList, rest) := by
  rw [identOkB] at h1
  match htl : nm.toList with
  | [] => rw [htl] at h1; simp at h1
  | c :: r =>
      rw [htl] at h1
      simp only [Bool.and_eq_true, List.all_eq_true] at h1
      obtain ⟨hc, hr⟩ := h1
      have hcc : nameChar true c = true := by
        simp [nameChar]
        simpa using hc
      have hall2 : ∀ c2 ∈ r, nameChar false c2 = true := by
        intro c2 h2
        have h3 := hr c2 h2
        simp [nameChar]
        simpa using h3
      simp only [List.cons_append]
      simp only [scanName]
      rw [if_pos hcc]
      rw [scanName_all_name r rest hall2 hrest]

theorem identOkB_ne_empty (nm : String) (h : identOkB nm = true) :
    nm.isEmpty = false := by
  rw [identOkB] at h
  match htl : nm.toList with
  | [] => rw [htl] at h; simp at h
  | c :: r =>
      by_cases he : nm.isEmpty
      · rw [String.isEmpty_iff] at he
        subst he
        simp at htl
      · simpa using he

theorem makeDataType_other (u : Usage) (src : TypeDeclSource) (nm : String)
    (subs : List String) (h2 : nm ∉ reservedNames) :
    makeDataType u src nm subs =
      some (.ok (.object nm), handleIfUnknownType u src nm) := by
  simp only [reservedNames, List.mem_cons, List.mem_singleton, not_or] at h2
  obtain ⟨hs, hb, hi, hd, ha, hdc, hd8, hu, ht, huu⟩ := h2
  cases subs with
  | nil => simp [makeDataType, makePrimitive, hs, hb, hi, hd, ha, hdc, hd8,
      hu, ht, huu]
  | cons s0 tail => simp [makeDataType, makePrimitive, hs, hb, hi, hd, ha,
      hdc, hd8, hu, ht, huu]

theorem stringDataTypeDecl_ident (u : Usage) (src : TypeDeclSource)
    (nm : String) (h1 : identOkB nm = true) (h2 : nm ∉ reservedNames) :
    stringDataTypeDecl u src nm =
      some (.ok (.mk (.object nm) true), handleIfUnknownType u src nm) := by
  have hne := identOkB_ne_empty nm h1
  have hscan : scanName (nm.toList) true = (nm.toList, []) := by
    have := scanName_ident nm [] h1 trivial
    simpa using this
  rw [stringDataTypeDecl]
  rw [if_neg (by simp [hne])]
  simp only [hscan, strMk_toList]
  rw [if_neg (by simp [hne])]
  rw [makeDataType_other u src nm [] h2]

theorem stringDataTypeDecl_ident_bracket (u : Usage) (src : TypeDeclSource)
    (nm : String) (h1 : identOkB nm = true) (h2 : nm ∉ reservedNames) :
    stringDataTypeDecl u src (nm ++ "[") =
      some (.ok (.mk (.object nm) true), handleIfUnknownType u src nm) := by
  have hne := identOkB_ne_empty nm h1
  have htl : (nm ++ "[").toList = nm.toList ++ ['['] := rfl
  have hs_ne : (nm ++ "[").isEmpty = false := by
    by_cases he : (nm ++ "[").isEmpty
    · rw [String.isEmpty_iff] at he
      have : (nm ++ "[").toList = [] := by rw [he]; rfl
      rw [htl] at this
      simp at this
    · simpa using he
  have hscan : scanName ((nm ++ "[").toList) true = (nm.toList, ['[']) := by
    rw [htl]
    exact scanName_ident nm ['['] h1 (by simp [nameChar])
  rw [stringDataTypeDecl]
  rw [if_neg (by simp [hs_ne])]
  simp only [hscan, strMk_toList]
  rw [if_neg (by simp [hne])]
  have hsub : subtypesFn ['['] = some (.ok ([], [])) := rfl
  simp only [hsub]
  rw [makeDataType_other u src nm [] h2]

/-! ## Claim C2 -/

/-- Counterexample for C2: the bare name `uuid` is not one of
`str`/`bool`/`int`/`double` and not `array`/`dict`, yet it resolves to
`Primitive(Str)` — not to a named reference — and nothing is recorded in the
usage tracker (the final tracker is still empty). -/
theorem c2_alias_counterexample :
    stringDataTypeDecl [] (.typ 0) "uuid" =
      some (.ok (.mk (.primitive .str) true), []) := by
  simp +decide [stringDataTypeDecl, scanName, nameChar, makeDataType,
    makePrimitive]

/-- **C2** (corrected): a leading name outside the full special set
`str, bool, int, double, array, dict, date_iso8601, url, timestamp, uuid`
resolves to a named reference (`Object`) and is recorded in the usage
tracker as unresolved-until-proven-otherwise; the four alias names
`date_iso8601`, `url`, `timestamp`, `uuid` also resolve to primitives. -/
theorem c2_named_reference_amended :
    (∀ (u : Usage) (src : TypeDeclSource) (nm : String) (subs : List String),
        nm ∉ reservedNames →
        makeDataType u src nm subs =
          some (.ok (.object nm), handleIfUnknownType u src nm))
    ∧ (∀ (u : Usage) (src : TypeDeclSource) (nm : String),
        nm ∉ reservedNames → lookupUsage u nm ≠ some none →
        ∃ l, lookupUsage (handleIfUnknownType u src nm) nm = some (some l) ∧
          l ≠ [])
    ∧ (∀ (u : Usage) (src : TypeDeclSource) (nm : String),
        identOkB nm = true → nm ∉ reservedNames →
        stringDataTypeDecl u src nm =
          some (.ok (.mk (.object nm) true), handleIfUnknownType u src nm)) := by
  refine ⟨?_, ?_, ?_⟩
  · intro u src nm subs h2
    exact makeDataType_other u src nm subs h2
  · intro u src nm _ hu
    exact handleIfUnknownType_records u src nm hu
  · intro u src nm h1 h2
    exact stringDataTypeDecl_ident u src nm h1 h2

/-- Witness for C2: the bare name `user` resolves to a named reference and
gets one unresolved-reference record. -/
theorem c2_witness :
    stringDataTypeDecl [] (.typ 0) "user" =
      some (.ok (.mk (.object "user") true),
        handleIfUnknownType [] (.typ 0) "user") :=
  c2_named_reference_amended.2.2 [] (.typ 0) "user" (by decide) (by decide)

/-! ## Claim C3 -/

/-- Counterexample for C3: the type expression `foo[` has an unbalanced
bracket group (no matching `]`), yet parsing does not return
`SubtypeValuesEmptyDeclaration` — it succeeds with the named reference
`foo`. -/
theorem c3_unbalanced_counterexample :
    stringDataTypeDecl [] (.typ 0) "foo[" =
      some (.ok (.mk (.object "foo") true),
        [("foo", some [.inTypeDeclaration 0 0])]) := by
  simp +decide [stringDataTypeDecl, scanName, nameChar, makeDataType,
    makePrimitive, subtypesFn, subtypesLoop, handleIfUnknownType,
    lookupUsage, insertUsage, unknownOf]

/-- **C3** (corrected): `SubtypeValuesEmptyDeclaration` is produced by the
empty-collected-entry check, which fires for closed and unclosed bracket
groups alike: `name[]` errors, and so does the *unclosed* `name[,xy` (the
comma pushes an empty first entry, and the check runs even though no `]` was
found).  Bracket imbalance is not itself an error: the unclosed `name[`,
which collects no entries, parses successfully to a named reference for any
plain non-special name, and `array[` panics on out-of-bounds indexing
(`subtypes[0]` of an empty subtype list) instead of returning the claimed
error. -/
theorem c3_subtype_errors_amended :
    (∀ (u : Usage) (src : TypeDeclSource) (nm : String),
        identOkB nm = true → nm ∉ reservedNames →
        stringDataTypeDecl u src (nm ++ "[") =
          some (.ok (.mk (.object nm) true), handleIfUnknownType u src nm))
    ∧ (∀ (u : Usage) (src : TypeDeclSource) (nm : String),
        identOkB nm = true →
        stringDataTypeDecl u src (nm ++ "[]") =
          some (.error .subtypeValuesEmptyDeclaration, u))
    ∧ (∀ (u : Usage) (src : TypeDeclSource) (nm : String),
        identOkB nm = true →
        stringDataTypeDecl u src (nm ++ "[,xy") =
          some (.error .subtypeValuesEmptyDeclaration, u))
    ∧ (∀ (u : Usage) (src : TypeDeclSource),
        stringDataTypeDecl u src "array[" = none)
    ∧ (∀ (u : Usage) (src : TypeDeclSource),
        stringDataTypeDecl u src "array[]" =
          some (.error .subtypeValuesEmptyDeclaration, u)) := by
  have hclosed : ∀ (u : Usage) (src : TypeDeclSource) (nm : String),
      identOkB nm = true →
      stringDataTypeDecl u src (nm ++ "[]") =
        some (.error .subtypeValuesEmptyDeclaration, u) := by
    intro u src nm h1
    have hne := identOkB_ne_empty nm h1
    have htl : (nm ++ "[]").toList = nm.toList ++ ['[', ']'] := rfl
    have hs_ne : (nm ++ "[]").isEmpty = false := by
      by_cases he : (nm ++ "[]").isEmpty
      · rw [String.isEmpty_iff] at he
        have : (nm ++ "[]").toList = [] := by rw [he]; rfl
        rw [htl] at this
        simp at this
      · simpa using he
    have hscan : scanName ((nm ++ "[]").toList) true = (nm.toList, ['[', ']']) := by
      rw [htl]
      exact scanName_ident nm ['[', ']'] h1 (by simp [nameChar])
    rw [stringDataTypeDecl]
    rw [if_neg (by simp [hs_ne])]
    simp only [hscan, strMk_toList]
    rw [if_neg (by simp [hne])]
    have hsub : subtypesFn ['[', ']'] =
        some (.error .subtypeValuesEmptyDeclaration) := rfl
    simp only [hsub]
  have hcomma : ∀ (u : Usage) (src : TypeDeclSource) (nm : String),
      identOkB nm = true →
      stringDataTypeDecl u src (nm ++ "[,xy") =
        some (.error .subtypeValuesEmptyDeclaration, u) := by
    intro u src nm h1
    have hne := identOkB_ne_empty nm h1
    have htl : (nm ++ "[,xy").toList = nm.toList ++ ['[', ',', 'x', 'y'] := rfl
    have hs_ne : (nm ++ "[,xy").isEmpty = false := by
      by_cases he : (nm ++ "[,xy").isEmpty
      · rw [String.isEmpty_iff] at he
        have : (nm ++ "[,xy").toList = [] := by rw [he]; rfl
        rw [htl] at this
        simp at this
      · simpa using he
    have hscan : scanName ((nm ++ "[,xy").toList) true =
        (nm.toList, ['[', ',', 'x', 'y']) := by
      rw [htl]
      exact scanName_ident nm ['[', ',', 'x', 'y'] h1 (by simp [nameChar])
    rw [stringDataTypeDecl]
    rw [if_neg (by simp [hs_ne])]
    simp only [hscan, strMk_toList]
    rw [if_neg (by simp [hne])]
    have hsub : subtypesFn ['[', ',', 'x', 'y'] =
        some (.error .subtypeValuesEmptyDeclaration) := rfl
    simp only [hsub]
  refine ⟨?_, hclosed, hcomma, ?_, ?_⟩
  · intro u src nm h1 h2
    exact stringDataTypeDecl_ident_bracket u src nm h1 h2
  · intro u src
    simp +decide [stringDataTypeDecl, scanName, nameChar, makeDataType,
      makePrimitive, subtypesFn, subtypesLoop]
  · intro u src
    have := hclosed u src "array" (by decide)
    simpa using this

/-- Witness for C3: `foo[]` (closed group, empty entry) errors with
`SubtypeValuesEmptyDeclaration`. -/
theorem c3_witness :
    stringDataTypeDecl [] (.typ 0) "foo[]" =
      some (.error .subtypeValuesEmptyDeclaration, []) :=
  c3_subtype_errors_amended.2.1 [] (.typ 0) "foo" (by decide)

/-! ## Claim C8 -/

/-- Counterexample for C8: a `query` payload body whose property `page`
references the undeclared name `usr` does **not** fail with `TypeNotFound` —
the payload parses successfully and the reference is deferred through the
usage tracker (recorded as `InPayload`), contradicting the claim that
resolution inside payload bodies is never deferred. -/
theorem c8_deferred_payload_counterexample :
    getQueryIfHas [] [(keyFrom "query", .yhash [(.ystr "page", .ystr "usr")])] =
      some (.ok (some (.query [.mk "page" (.ok (.mk (.object "usr") true))])),
        [("usr", some [.inPayload 0 0]), ("query", none)]) := by
  simp +decide [getQueryIfHas, containsKeyYaml, lookupYaml, keyFrom, yamlBeq,
    Yaml.asHash, typeParserParse, parseProperties, Yaml.asStr,
    makeDataTypeDecl, stringDataTypeDecl, scanName, nameChar, makeDataType,
    makePrimitive, handleIfUnknownType, lookupUsage, insertUsage, unknownOf,
    TypeDecl.property_decls]

/-- **C8** (corrected): only a response given as a *bare type-name string*
resolves immediately against the already-parsed types, with a hard
`TypeNotFound` on a miss (and no tracker involvement).  Named references
*inside* query/body/response property mappings are instead deferred through
the Type Usage Tracker exactly like in-type-body references: the payload
parses successfully and the unknown name is recorded for end-of-run
reconciliation. -/
theorem c8_resolution_asymmetry_amended :
    (∀ (types : TypesList) (u : Usage) (name : String),
        findType types name = none →
        responseTypeDecl types u (.ystr name) =
          some (.error (.typeNotFound name), u))
    ∧ (∀ (types : TypesList) (u : Usage) (hash : YamlHash) (name : String),
        lookupYaml hash (keyFrom "response") = some (.ystr name) →
        findType types name = none →
        getResponse types u hash = some (.error (.typeNotFound name), u))
    ∧ (∀ (u : Usage) (nm pn : String),
        identOkB nm = true → nm ∉ reservedNames →
        lookupUsage u nm ≠ some none →
        ∃ l, l ≠ [] ∧
          lookupUsage (handleIfUnknownType u (.interfaceInput 0) nm) nm =
            some (some l) ∧
          getQueryIfHas u [(keyFrom "query", .yhash [(.ystr pn, .ystr nm)])] =
            some (.ok (some (.query [.mk pn (.ok (.mk (.object nm) true))])),
              insertUsage (handleIfUnknownType u (.interfaceInput 0) nm)
                "query" none)) := by
  refine ⟨?_, ?_, ?_⟩
  · intro types u name hf
    simp [responseTypeDecl, hf]
  · intro types u hash name hl hf
    have hc : containsKeyYaml hash (keyFrom "response") = true := by
      simp [containsKeyYaml, hl]
    rw [getResponse, if_neg (by simp [hc])]
    simp [hl, hf]
  · intro u nm pn h1 h2 hu
    obtain ⟨l, hl, hlne⟩ := handleIfUnknownType_records u (.interfaceInput 0)
      nm hu
    refine ⟨l, hlne, hl, ?_⟩
    have hc : containsKeyYaml [(keyFrom "query",
        Yaml.yhash [(.ystr pn, .ystr nm)])] (keyFrom "query") = true := by
      simp [containsKeyYaml, lookupYaml, keyFrom, yamlBeq]
    rw [getQueryIfHas, if_neg (by simp [hc])]
    have hlook : lookupYaml [(keyFrom "query",
        Yaml.yhash [(.ystr pn, .ystr nm)])] (keyFrom "query") =
        some (.yhash [(.ystr pn, .ystr nm)]) := by
      simp [lookupYaml, keyFrom, yamlBeq]
    simp only [hlook, Yaml.asHash]
    have hparse : typeParserParse u (.interfaceInput 0) "query"
        [(.ystr pn, .ystr nm)] =
        some (.ok (.mk "query" [.mk pn (.ok (.mk (.object nm) true))]),
          insertUsage (handleIfUnknownType u (.interfaceInput 0) nm)
            "query" none) := by
      rw [typeParserParse]
      have hprops : parseProperties u (.interfaceInput 0)
          [(.ystr pn, .ystr nm)] =
          some (.ok [.mk pn (.ok (.mk (.object nm) true))],
            handleIfUnknownType u (.interfaceInput 0) nm) := by
        simp only [parseProperties]
        simp only [Yaml.asStr]
        rw [makeDataTypeDecl]
        rw [stringDataTypeDecl_ident u (.interfaceInput 0) nm h1 h2]
      rw [hprops]
    rw [hparse]
    simp [TypeDecl.property_decls]

/-- Witness for C8: the undeclared name `usr` inside a query body is
deferred and recorded, not rejected. -/
theorem c8_witness :
    ∃ l, l ≠ [] ∧
      lookupUsage (handleIfUnknownType [] (.interfaceInput 0) "usr") "usr" =
        some (some l) ∧
      getQueryIfHas [] [(keyFrom "query", .yhash [(.ystr "page", .ystr "usr")])] =
        some (.ok (some (.query [.mk "page" (.ok (.mk (.object "usr") true))])),
          insertUsage (handleIfUnknownType [] (.interfaceInput 0) "usr")
            "query" none) :=
  c8_resolution_asymmetry_amended.2.2 [] "usr" "page" (by decide) (by decide)
    (by simp [lookupUsage])

/-! ## Claim C6 -/

theorem digitsValue_three (a b c : Char) (ha : a.isDigit = true)
    (hb : b.isDigit = true) (hc : c.isDigit = true) :
    ∃ n, digitsValue [a, b, c] = some n ∧ n ≤ 999 := by
  have hba : 48 ≤ a.toNat ∧ a.toNat ≤ 57 := by
    simp [Char.isDigit] at ha
    exact ha
  have hbb : 48 ≤ b.toNat ∧ b.toNat ≤ 57 := by
    simp [Char.isDigit] at hb
    exact hb
  have hbc : 48 ≤ c.toNat ∧ c.toNat ≤ 57 := by
    simp [Char.isDigit] at hc
    exact hc
  refine ⟨((0 * 10 + (a.toNat - 48)) * 10 + (b.toNat - 48)) * 10 +
    (c.toNat - 48), ?_, by omega⟩
  rw [digitsValue]
  simp only [List.isEmpty_cons, List.all_cons, List.all_nil, ha, hb, hc,
    Bool.and_true, Bool.and_self, if_true, List.foldl]
  rw [if_neg (by simp), if_pos (by omega)]

theorem parseU16_dxx (s : String) (d : Char) (h : s.toList = [d, 'x', 'x'])
    (hd : d.isDigit = true) : parseU16 s = none := by
  have hne : d ≠ '+' := by
    intro he
    subst he
    simp at hd
  simp only [parseU16, h]
  rw [if_neg hne]
  rw [digitsValue]
  rw [if_neg (by simp)]
  rw [if_neg (by simp [hd])]

/-- Counterexample for C6: the response key `4abc` is neither a 3-character
numeric string nor a digit followed by the literal `xx`, yet the code
accepts it as the prefix pattern `4xx` instead of failing. -/
theorem c6_key_grammar_counterexample :
    statusFromKeyString "4abc" = .ok (.pfx 4) ∧
      specStatusKeyGrammar "4abc" = false := ⟨rfl, rfl⟩

/-- **C6** (corrected): every key conforming to the claimed grammar is
accepted (3-digit numerics as `Fixed`, digit+`xx` as `Prefix` of that
digit), but acceptance is strictly wider: a key is accepted **iff** it
parses as a `u16` (any magnitude up to 65535, with an optional leading `+`)
or merely *starts* with a decimal digit (the rest of the key is ignored by
the prefix fallback).  A key is rejected only when its first character is
not a digit and it is not a `u16` numeral. -/
theorem c6_status_key_amended :
    (∀ (s : String), specStatusKeyGrammar s = true →
        ∃ st, statusFromKeyString s = .ok st)
    ∧ (∀ (s : String) (d : Char), s.toList = [d, 'x', 'x'] →
        d.isDigit = true →
        statusFromKeyString s = .ok (.pfx (d.toNat - 48)))
    ∧ (∀ (s : String),
        (∃ st, statusFromKeyString s = .ok st) ↔
          ((parseU16 s).isSome = true ∨
           (match s.toList.head? with
            | some c => c.isDigit
            | none => false) = true)) := by
  have hxx : ∀ (s : String) (d : Char), s.toList = [d, 'x', 'x'] →
      d.isDigit = true →
      statusFromKeyString s = .ok (.pfx (d.toNat - 48)) := by
    intro s d h hd
    rw [statusFromKeyString]
    rw [parseU16_dxx s d h hd]
    simp only [asStatusCodePattern, h, List.head?_cons]
    show (match (if d.isDigit then some (d.toNat - 48) else none : Option Nat)
      with
      | none => (.error .invalidStatusCode :
          Except InterfaceDeclError StatusCode)
      | some d2 => .ok (.pfx d2)) = .ok (.pfx (d.toNat - 48))
    rw [if_pos hd]
  refine ⟨?_, hxx, ?_⟩
  · intro s hspec
    rw [specStatusKeyGrammar] at hspec
    match hl : s.toList with
    | [] => rw [hl] at hspec; simp at hspec
    | [a] => rw [hl] at hspec; simp at hspec
    | [a, b] => rw [hl] at hspec; simp at hspec
    | a :: b :: c :: d :: rest => rw [hl] at hspec; simp at hspec
    | [a, b, c] =>
        rw [hl] at hspec
        simp only [Bool.or_eq_true, Bool.and_eq_true, decide_eq_true_eq]
          at hspec
        rcases hspec with ⟨⟨ha, hb⟩, hc⟩ | ⟨⟨ha, hb⟩, hc⟩
        · have hne : a ≠ '+' := by
            intro he
            subst he
            simp at ha
          obtain ⟨n, hn, _⟩ := digitsValue_three a b c ha hb hc
          refine ⟨.fixed n, ?_⟩
          rw [statusFromKeyString]
          simp only [parseU16, hl]
          rw [if_neg hne, hn]
        · subst hb
          subst hc
          exact ⟨.pfx (a.toNat - 48), hxx s a hl ha⟩
  · intro s
    rw [statusFromKeyString]
    cases hp : parseU16 s with
    | some n => simp [hp]
    | none =>
        simp only [hp]
        rw [asStatusCodePattern]
        cases hh : s.toList.head? with
        | none => simp [hh]
        | some c =>
            simp only [hh]
            by_cases hd : c.isDigit
            · simp [charToDigit, hd]
            · simp [charToDigit, hd]

/-- Witness for C6: the conforming key `4xx` is accepted as `Prefix(4)`. -/
theorem c6_witness : statusFromKeyString "4xx" = .ok (.pfx ('4'.toNat - 48)) :=
  c6_status_key_amended.2.1 "4xx" '4' rfl (by decide)

/-! ## Claim C5: render / re-parse round trip -/

theorem toList_append (a b : String) : (a ++ b).toList = a.toList ++ b.toList :=
  rfl

theorem toList_ne_nil_of_not_isEmpty (s : String) (h : s.isEmpty = false) :
    s.toList ≠ [] := by
  intro hc
  have hs : s = "" := by
    have : String.mk s.toList = String.mk [] := by rw [hc]
    rw [strMk_toList] at this
    exact this
  subst hs
  exact absurd h (by decide)

theorem subtypesLoop_balanced (w : List Char) :
    ∀ (d n : Nat) (acc : List String) (cur : List Char) (rest : List Char),
    balNC w d = true → 1 ≤ n →
    subtypesLoop (w ++ rest) (n + d) acc cur =
      subtypesLoop rest n acc (cur ++ w) := by
  induction w with
  | nil =>
      intro d n acc cur rest hb _
      have hd : d = 0 := by simpa [balNC] using hb
      subst hd
      simp only [List.nil_append, List.append_nil, Nat.add_zero]
  | cons c r ih =>
      intro d n acc cur rest hb hn
      simp only [List.cons_append]
      by_cases hbo : c = '['
      · subst hbo
        have hb2 : balNC r (d + 1) = true := by simpa [balNC] using hb
        have hstep : subtypesLoop ('[' :: (r ++ rest)) (n + d) acc cur =
            subtypesLoop (r ++ rest) (n + d + 1) acc (cur ++ ['[']) := by
          simp [subtypesLoop]
        rw [hstep]
        rw [show n + d + 1 = n + (d + 1) from rfl]
        rw [ih (d + 1) n acc (cur ++ ['[']) rest hb2 hn]
        simp
      · by_cases hbc : c = ']'
        · subst hbc
          cases d with
          | zero =>
              have : False := by simpa [balNC] using hb
              exact this.elim
          | succ d2 =>
              have hb3 : balNC r d2 = true := by simpa [balNC] using hb
              have hstep : subtypesLoop (']' :: (r ++ rest)) (n + (d2 + 1))
                  acc cur =
                  subtypesLoop (r ++ rest) (n + (d2 + 1) - 1) acc
                    (cur ++ [']']) := by
                have hne : n + (d2 + 1) ≠ 1 := by omega
                simp [subtypesLoop, hne]
              rw [hstep]
              rw [show n + (d2 + 1) - 1 = n + d2 from by omega]
              rw [ih d2 n acc (cur ++ [']']) rest hb3 hn]
              simp
        · by_cases hcm : c = ','
          · subst hcm
            have : False := by simpa [balNC] using hb
            exact this.elim
          · have hb2 : balNC r d = true := by
              simpa [balNC, hbo, hbc, hcm] using hb
            have hstep : subtypesLoop (c :: (r ++ rest)) (n + d) acc cur =
                subtypesLoop (r ++ rest) (n + d) acc (cur ++ [c]) := by
              simp [subtypesLoop, hbc, hcm, hbo]
            rw [hstep, ih d n acc (cur ++ [c]) rest hb2 hn]
            simp

theorem arrayInnerSafe_balNC (t : DataType) (h : arrayInnerSafe t = true) :
    balNC (renderDataType t).toList 0 = true := by
  match t, h with
  | .primitive p, _ => cases p <;> decide
  | .object nm, h =>
      simp only [arrayInnerSafe, Bool.and_eq_true] at h
      exact h.2

theorem arrayInnerSafe_not_empty (t : DataType)
    (h : arrayInnerSafe t = true) : (renderDataType t).isEmpty = false := by
  match t, h with
  | .primitive p, _ => cases p <;> decide
  | .object nm, h =>
      simp only [arrayInnerSafe, Bool.and_eq_true] at h
      have := h.1.1
      simp only [renderDataType]
      simp at this
      simpa using this

theorem arrayInnerSafe_not_reserved (nm : String)
    (h : arrayInnerSafe (.object nm) = true) : nm ∉ reservedNames := by
  simp only [arrayInnerSafe, Bool.and_eq_true] at h
  have h2 := h.1.2
  simpa using h2

theorem makeDataType_render_inner (u : Usage) (src : TypeDeclSource)
    (t : DataType) (h : arrayInnerSafe t = true) :
    ∃ u2, makeDataType u src (renderDataType t) [] = some (.ok t, u2) := by
  match t, h with
  | .primitive p, _ =>
      cases p <;>
        exact ⟨u, by simp +decide [renderDataType, renderPrimitive,
          makeDataType, makePrimitive]⟩
  | .object nm, h =>
      refine ⟨handleIfUnknownType u src nm, ?_⟩
      simp only [renderDataType]
      exact makeDataType_other u src nm []
        (arrayInnerSafe_not_reserved nm h)

theorem str_eq_of_toList (s : String) (L : List Char) (h : s.toList = L) :
    s = String.mk L := by
  rw [← h]
  exact (strMk_toList s).symm

theorem str_append_empty (s : String) : s ++ "" = s := by
  apply Eq.trans (str_eq_of_toList (s ++ "") (s.toList) (by simp [toList_append]))
  exact strMk_toList s

theorem stringDataTypeDecl_ident_opt (u : Usage) (src : TypeDeclSource)
    (nm : String) (h1 : identOkB nm = true) (h2 : nm ∉ reservedNames) :
    stringDataTypeDecl u src (nm ++ "?") =
      some (.ok (.mk (.object nm) false), handleIfUnknownType u src nm) := by
  have hne := identOkB_ne_empty nm h1
  have htl : (nm ++ "?").toList = nm.toList ++ ['?'] := rfl
  have hs_ne : (nm ++ "?").isEmpty = false := by
    by_cases he : (nm ++ "?").isEmpty
    · rw [String.isEmpty_iff] at he
      have : (nm ++ "?").toList = [] := by rw [he]; rfl
      rw [htl] at this
      simp at this
    · simpa using he
  have hscan : scanName ((nm ++ "?").toList) true = (nm.toList, ['?']) := by
    rw [htl]
    exact scanName_ident nm ['?'] h1 (by simp [nameChar])
  rw [stringDataTypeDecl]
  rw [if_neg (by simp [hs_ne])]
  simp only [hscan, strMk_toList]
  rw [if_neg (by simp [hne])]
  have hsub : subtypesFn ['?'] = some (.ok ([], ['?'])) := rfl
  simp only [hsub]
  rw [makeDataType_other u src nm [] h2]
  simp

theorem makeDataType_array_inner (u : Usage) (src : TypeDeclSource)
    (t : DataType) (h : arrayInnerSafe t = true) :
    ∃ u2, makeDataType u src "array" [renderDataType t] =
      some (.ok (.array t), u2) := by
  obtain ⟨u2, hm⟩ := makeDataType_render_inner u src t h
  refine ⟨u2, ?_⟩
  simp +decide [makeDataType, makePrimitive, hm]

theorem stringDataTypeDecl_array (u : Usage) (src : TypeDeclSource)
    (t : DataType) (h : arrayInnerSafe t = true) (opt : List Char) :
    ∃ u2, stringDataTypeDecl u src
        (String.mk ("array[".toList ++ (renderDataType t).toList ++
          ']' :: opt)) =
      some (.ok (.mk (.array t)
        (match opt with
         | [] => true
         | c :: _ => if c = '?' then false else true)), u2) := by
  obtain ⟨u2, harr⟩ := makeDataType_array_inner u src t h
  refine ⟨u2, ?_⟩
  have hw_ne : (renderDataType t).isEmpty = false := arrayInnerSafe_not_empty t h
  have hs_ne : (String.mk ("array[".toList ++ (renderDataType t).toList ++
      ']' :: opt)).isEmpty = false := by
    by_cases he : (String.mk ("array[".toList ++ (renderDataType t).toList ++
        ']' :: opt)).isEmpty
    · rw [String.isEmpty_iff] at he
      have h0 : ("array[".toList ++ (renderDataType t).toList ++
          ']' :: opt) = ([] : List Char) := by
        have := congrArg String.toList he
        simpa using this
      simp at h0
    · simpa using he
  have hscan : scanName ((String.mk ("array[".toList ++
      (renderDataType t).toList ++ ']' :: opt)).toList) true =
      ("array".toList, '[' :: ((renderDataType t).toList ++ ']' :: opt)) :=
    scanName_ident "array" ('[' :: ((renderDataType t).toList ++ ']' :: opt))
      (by decide) (by simp [nameChar])
  have hloop1 : subtypesLoop ((renderDataType t).toList ++ (']' :: opt)) 1 [] []
      = subtypesLoop (']' :: opt) 1 [] (renderDataType t).toList := by
    have := subtypesLoop_balanced (renderDataType t).toList 0 1 [] []
      (']' :: opt) (arrayInnerSafe_balNC t h) (Nat.le_refl 1)
    simpa using this
  have hloop2 : subtypesLoop (']' :: opt) 1 [] (renderDataType t).toList =
      some ([renderDataType t], ']' :: opt) := by
    rw [subtypesLoop]
    rw [if_pos ⟨rfl, rfl⟩]
    simp [strMk_toList]
  have hsub : subtypesFn ('[' :: ((renderDataType t).toList ++ ']' :: opt)) =
      some (.ok ([renderDataType t], opt)) := by
    rw [subtypesFn]
    rw [if_pos rfl]
    rw [hloop1, hloop2]
    simp [hw_ne]
  rw [stringDataTypeDecl]
  rw [if_neg (fun hc => Bool.false_ne_true (hs_ne.symm.trans hc))]
  simp only [hscan, strMk_toList]
  rw [if_neg (by decide)]
  simp only [hsub]
  simp only [harr]
  cases opt with
  | nil => simp
  | cons c r => simp

/-- Counterexample for C5: the expression `dict[int, str]` parses to the
dictionary type `Dict(Int, Str)`, but that type renders (via `Display`) as
`dict{ int: str }` — with braces — and re-parsing the rendered form
panics (the name scan stops at the brace, no subtypes are collected, and
`make_dict_data_type` indexes an empty subtype list). -/
theorem c5_dict_roundtrip_counterexample :
    stringDataTypeDecl [] (.typ 0) "dict[int, str]" =
      some (.ok (.mk (.dict .int (.primitive .str)) true), []) ∧
    renderDataTypeDecl (.mk (.dict .int (.primitive .str)) true) =
      "dict\x7b int: str \x7d" ∧
    stringDataTypeDecl [] (.typ 0)
      (renderDataTypeDecl (.mk (.dict .int (.primitive .str)) true)) =
      none := by
  refine ⟨?_, by rfl, ?_⟩
  · have hsplit : dictValueSplit "str" = some (.ok ("str", [])) := by rfl
    have hmkstr : makeDataType [] (.typ 0) "str" [] =
        some (.ok (.primitive .str), []) := by
      simp +decide [makeDataType, makePrimitive]
    have hmdd : makeDictDataType [] (.typ 0) ["int", "str"] =
        some (.ok (.dict .int (.primitive .str)), []) := by
      rw [makeDictDataType_unfold]
      simp +decide [makePrimitive, hsplit, hmkstr]
    have hmdt : makeDataType [] (.typ 0) "dict" ["int", "str"] =
        some (.ok (.dict .int (.primitive .str)), []) := by
      simp +decide [makeDataType, makePrimitive, hmdd]
    simp +decide [stringDataTypeDecl, scanName, nameChar, subtypesFn,
      subtypesLoop, hmdt]
  · have hmdd : makeDictDataType [] (.typ 0) [] = none := by
      rw [makeDictDataType_unfold]
    have hmdt : makeDataType [] (.typ 0) "dict" [] = none := by
      simp +decide [makeDataType, makePrimitive, hmdd]
    simp +decide [renderDataTypeDecl, renderDataType, renderPrimitive,
      stringDataTypeDecl, scanName, nameChar, subtypesFn, subtypesLoop, hmdt]

/-- **C5** (corrected): rendering a parsed data-type declaration and
re-parsing the rendered text reproduces the declaration — including the
trailing `?` optionality marker — for primitives, for plain-identifier named
references, and for arrays of a primitive or of a nonempty, non-reserved,
bracket-balanced comma-free named reference.  The round trip does *not* hold
for dictionaries: `Display` renders `dict` with braces (`dict{ K: V }`),
which the parser cannot read back (it panics on the empty subtype list). -/
theorem c5_roundtrip_amended (dt : DataType) (req : Bool) (u : Usage)
    (src : TypeDeclSource) (h : roundTripSafe dt = true) :
    ∃ u2, stringDataTypeDecl u src (renderDataTypeDecl (.mk dt req)) =
      some (.ok (.mk dt req), u2) := by
  cases dt with
  | primitive p =>
      cases p <;> cases req <;>
        exact ⟨u, by simp +decide [renderDataTypeDecl, renderDataType,
          renderPrimitive, stringDataTypeDecl, scanName, nameChar,
          makeDataType, makePrimitive, subtypesFn, subtypesLoop]⟩
  | object nm =>
      simp only [roundTripSafe, Bool.and_eq_true] at h
      obtain ⟨h1, h2⟩ := h
      have h2m : nm ∉ reservedNames := by simpa using h2
      cases req with
      | true =>
          refine ⟨handleIfUnknownType u src nm, ?_⟩
          have hs : renderDataTypeDecl (.mk (.object nm) true) = nm := by
            simp only [renderDataTypeDecl, renderDataType, if_pos]
            exact str_append_empty nm
          rw [hs]
          exact stringDataTypeDecl_ident u src nm h1 h2m
      | false =>
          refine ⟨handleIfUnknownType u src nm, ?_⟩
          have hs : renderDataTypeDecl (.mk (.object nm) false) = nm ++ "?" := by
            simp [renderDataTypeDecl, renderDataType]
          rw [hs]
          exact stringDataTypeDecl_ident_opt u src nm h1 h2m
  | array t =>
      have ht : arrayInnerSafe t = true := by simpa [roundTripSafe] using h
      cases req with
      | true =>
          obtain ⟨u2, harr⟩ := stringDataTypeDecl_array u src t ht []
          refine ⟨u2, ?_⟩
          have hs : renderDataTypeDecl (.mk (.array t) true) =
              String.mk ("array[".toList ++ (renderDataType t).toList ++
                ']' :: []) := by
            apply str_eq_of_toList
            simp [renderDataTypeDecl, renderDataType, toList_append]
          rw [hs]
          simpa using harr
      | false =>
          obtain ⟨u2, harr⟩ := stringDataTypeDecl_array u src t ht ['?']
          refine ⟨u2, ?_⟩
          have hs : renderDataTypeDecl (.mk (.array t) false) =
              String.mk ("array[".toList ++ (renderDataType t).toList ++
                ']' :: ['?']) := by
            apply str_eq_of_toList
            simp [renderDataTypeDecl, renderDataType, toList_append]
          rw [hs]
          simpa using harr
  | dict k v => simp [roundTripSafe] at h
  | objectDecl td => simp [roundTripSafe] at h

/-- Witness for C5: the optional array declaration `array[user]?` renders
from `Array(Object "user")` with `is_required = false` and re-parses to
exactly that declaration. -/
theorem c5_witness :
    roundTripSafe (.array (.object "user")) = true ∧
    ∃ u2, stringDataTypeDecl [] (.typ 0)
        (renderDataTypeDecl (.mk (.array (.object "user")) false)) =
      some (.ok (.mk (.array (.object "user")) false), u2) :=
  ⟨by decide, c5_roundtrip_amended (.array (.object "user")) false [] (.typ 0)
    (by decide)⟩

end ArcIsle
